import Mathlib

/-!
Verification development for the stage5-api credit-billing service.

The definitions below are a shallow embedding of the TypeScript source:
the single D1/SQLite database becomes an explicit `DBState` record, each
SQL statement becomes a pure function on that record, and each route
handler becomes a state transformer returning its response together with
the updated database.  JavaScript numbers that carry fractional seconds
or USD prices are modelled as exact rationals; credit amounts, balances
and ledger deltas are integers, as in the schema.
-/

namespace Stage5

/-- A row of the append-only `credit_ledger` table (src/src/lib/db.ts,
`recordLedger`). -/
structure LedgerRow where
  device_id : String
  delta : Int
  reason : String
  meta : String
  deriving Repr, DecidableEq

/-- A row of the `billing_idempotency` table
(migrations/0001_billing_idempotency.sql): PRIMARY KEY
(device_id, reason, idempotency_key), `reason` is NOT NULL. -/
structure BillingIdemRow where
  device_id : String
  reason : String
  idempotency_key : String
  spend : Int
  meta : String
  deriving Repr, DecidableEq

/-- A word timing of a transcription payload; the end timestamp is absent
when the provider sent none (or sent a non-finite number). -/
structure WordTiming where
  endTime : Option ℚ
  deriving Repr, DecidableEq

/-- A segment of a transcription payload; some providers nest word
timings inside segments. -/
structure SegmentTiming where
  endTime : Option ℚ
  words : Option (List WordTiming)
  deriving Repr, DecidableEq

/-- The provider result payload of a transcription, as far as the billing
code inspects it (src/src/routes/transcribe.ts): explicit duration
fields, top-level text, segments and words.  A field is `none` when the
JSON field is absent, null, or not a finite number. -/
structure TranscriptPayload where
  duration : Option ℚ
  approx_duration : Option ℚ
  text : Option String
  segments : Option (List SegmentTiming)
  words : Option (List WordTiming)
  deriving Repr, DecidableEq

/-- A row of the `translation_jobs` table (src/src/lib/db.ts); `credited`
models the 0/1 integer column. -/
structure TranslationJob where
  job_id : String
  device_id : String
  status : String
  result : Option String
  error : Option String
  prompt_tokens : Option Int
  completion_tokens : Option Int
  credited : Bool
  deriving Repr, DecidableEq

/-- A row of the `transcription_jobs` table (src/src/lib/db.ts); the
JSON result column is kept structurally as a TranscriptPayload. -/
structure TranscriptionJob where
  job_id : String
  device_id : String
  status : String
  file_key : Option String
  language : Option String
  result : Option TranscriptPayload
  error : Option String
  duration_seconds : Option Int
  deriving Repr, DecidableEq

/-- The whole D1 database: `credits` (one balance row per device,
device_id PRIMARY KEY), `credit_ledger`, `billing_idempotency`,
`processed_events` and the two job tables. -/
structure DBState where
  credits : List (String × Int)
  credit_ledger : List LedgerRow
  billing_idempotency : List BillingIdemRow
  processed_events : List (String × String)
  translation_jobs : List TranslationJob
  transcription_jobs : List TranscriptionJob
  deriving Repr, DecidableEq

/-- The empty database (all tables freshly created). -/
def DBState.init : DBState := ⟨[], [], [], [], [], []⟩

/-- SELECT credit_balance FROM credits WHERE device_id = d (first row). -/
def findVal : List (String × Int) → String → Option Int
  | [], _ => none
  | p :: rest, d => if p.1 = d then some p.2 else findVal rest d

/-- The PRIMARY KEY constraint of the `credits` table: device ids are
pairwise distinct. -/
def keysNodup (l : List (String × Int)) : Prop := (l.map Prod.fst).Nodup

instance (l : List (String × Int)) : Decidable (keysNodup l) := by
  unfold keysNodup; infer_instance

/-- UPDATE credits SET credit_balance = credit_balance - a
WHERE device_id = d AND credit_balance >= a.
Returns the updated table together with the number of affected rows
(res.meta.changes). -/
def condDecrement : List (String × Int) → String → Int → List (String × Int) × Nat
  | [], _, _ => ([], 0)
  | p :: rest, d, a =>
    let t := condDecrement rest d a
    if p.1 = d ∧ a ≤ p.2 then ((p.1, p.2 - a) :: t.1, t.2 + 1)
    else (p :: t.1, t.2)

/-- INSERT INTO credits (device_id, credit_balance) VALUES (d, a)
ON CONFLICT(device_id) DO UPDATE SET credit_balance = credit_balance + a. -/
def upsertAdd : List (String × Int) → String → Int → List (String × Int)
  | [], d, a => [(d, a)]
  | p :: rest, d, a =>
    if p.1 = d then (p.1, p.2 + a) :: rest else p :: upsertAdd rest d a

/-- INSERT INTO credits (device_id, credit_balance) VALUES (d, 0)
ON CONFLICT(device_id) DO UPDATE SET credit_balance = 0. -/
def upsertSetZero : List (String × Int) → String → List (String × Int)
  | [], d => [(d, 0)]
  | p :: rest, d =>
    if p.1 = d then (p.1, 0) :: rest else p :: upsertSetZero rest d

/-- Sum of ledger deltas recorded for one device. -/
def ledgerSum : List LedgerRow → String → Int
  | [], _ => 0
  | r :: rest, d => (if r.device_id = d then r.delta else 0) + ledgerSum rest d

/-- Balance as observed through `getCredits`; an absent row reads as a
zero balance for accounting purposes. -/
def balanceOf (s : DBState) (d : String) : Int := (findVal s.credits d).getD 0

/-- INSERT INTO credit_ledger (device_id, delta, reason, meta)
VALUES (...) — the body of `recordLedger` in src/src/lib/db.ts. -/
def recordLedger (s : DBState) (deviceId : String) (delta : Int)
    (reason meta : String) : DBState :=
  { s with credit_ledger := s.credit_ledger ++ [⟨deviceId, delta, reason, meta⟩] }

/-- Errors surfaced by the storage layer that the billing code inspects. -/
inductive DBError where
  | uniqueBillingIdempotency
  | notNullBillingIdempotencyReason
  | otherFault (msg : String)
  deriving Repr, DecidableEq

/-- The SQLite error message carried by each error value. -/
def DBError.message : DBError → String
  | .uniqueBillingIdempotency =>
      "UNIQUE constraint failed: billing_idempotency.device_id, billing_idempotency.reason, billing_idempotency.idempotency_key"
  | .notNullBillingIdempotencyReason =>
      "NOT NULL constraint failed: billing_idempotency.reason"
  | .otherFault m => m

/-- Does the character list start with the given pattern? -/
def charsStartWith : List Char → List Char → Bool
  | _, [] => true
  | [], _ :: _ => false
  | a :: as, b :: bs => a = b && charsStartWith as bs

/-- Does the character list contain the pattern as a contiguous run? -/
def charsInclude : List Char → List Char → Bool
  | [], pat => pat.isEmpty
  | a :: as, pat => charsStartWith (a :: as) pat || charsInclude as pat

/-- msg.includes(pat) on strings. -/
def strIncludes (s pat : String) : Bool := charsInclude s.toList pat.toList

/-- src/src/lib/db.ts, `isBillingIdempotencyUniqueConstraintError`:
the message mentions both a UNIQUE violation and billing_idempotency. -/
def isBillingIdempotencyUniqueConstraintError (e : DBError) : Bool :=
  strIncludes e.message "UNIQUE constraint failed" &&
    strIncludes e.message "billing_idempotency"

/-- src/src/lib/db.ts, `isBillingIdempotencyNotNullRollbackError`. -/
def isBillingIdempotencyNotNullRollbackError (e : DBError) : Bool :=
  strIncludes e.message "NOT NULL constraint failed: billing_idempotency.reason"

/-- Does a `billing_idempotency` row with this composite key exist? -/
def hasBillingKey (s : DBState) (deviceId reason key : String) : Bool :=
  s.billing_idempotency.any fun row =>
    row.device_id = deviceId ∧ row.reason = reason ∧ row.idempotency_key = key

/-- INSERT INTO billing_idempotency (device_id, reason, idempotency_key,
spend, meta) VALUES (...).  `reason` is an Option because the third batch
statement deliberately inserts NULL there; NULL violates NOT NULL, a
duplicate key violates the PRIMARY KEY. -/
def insertBillingIdem (s : DBState) (deviceId : String) (reason : Option String)
    (key : String) (spend : Int) (meta : String) : Except DBError DBState :=
  match reason with
  | none => .error .notNullBillingIdempotencyReason
  | some r =>
    if hasBillingKey s deviceId r key then .error .uniqueBillingIdempotency
    else .ok { s with billing_idempotency :=
                s.billing_idempotency ++ [⟨deviceId, r, key, spend, meta⟩] }

/-- The third statement of the D1 batch: INSERT INTO billing_idempotency
SELECT deviceId, NULL, key, spend, meta WHERE (SELECT changes()) = 0.
When the conditional decrement affected no row this inserts a NULL
reason, forcing the whole batch to abort; otherwise it inserts nothing. -/
def conditionalNullReasonInsert (s : DBState) (deviceId key : String)
    (spend : Int) (meta : String) (changes : Nat) : Except DBError DBState :=
  if changes = 0 then insertBillingIdem s deviceId none key spend meta
  else .ok s

/-- Result of a charge as seen by the caller: the resolved boolean of the
returned promise, or a rethrown storage error. -/
inductive ChargeOutcome where
  | ok (succeeded : Bool)
  | thrown (e : DBError)
  deriving Repr, DecidableEq

/-- src/src/lib/db.ts, `updateBalance`: the plain (non-idempotent) charge.
Zero or negative spend succeeds trivially with no writes; otherwise an
atomic conditional decrement, and a ledger row only when a row was
affected. -/
def updateBalance (s : DBState) (deviceId : String) (spend : Int)
    (reason meta : String) : Bool × DBState :=
  if spend ≤ 0 then (true, s)
  else
    let t := condDecrement s.credits deviceId spend
    if t.2 > 0 then
      (true, recordLedger { s with credits := t.1 } deviceId (-spend) reason meta)
    else (false, s)

/-- src/src/lib/db.ts, `updateBalanceIdempotent`, D1 batch path.  The four
statements run as one transaction: an error in any of them rolls the
whole batch back.  A UNIQUE violation on the idempotency insert is
treated as success (already charged), the NULL-reason rollback sentinel
as insufficient balance, anything else is rethrown. -/
def updateBalanceIdempotent (s : DBState) (deviceId : String) (spend : Int)
    (reason meta idempotencyKey : String) : ChargeOutcome × DBState :=
  if spend ≤ 0 then (.ok true, s)
  else
    match insertBillingIdem s deviceId (some reason) idempotencyKey spend meta with
    | .error e => (catchBillingError e, s)
    | .ok s1 =>
      let t := condDecrement s1.credits deviceId spend
      match conditionalNullReasonInsert { s1 with credits := t.1 } deviceId
          idempotencyKey spend meta t.2 with
      | .error e => (catchBillingError e, s)
      | .ok s2 =>
        (.ok true,
         recordLedger s2 deviceId (-spend) reason meta)
where
  /-- The catch clause of the batch path. -/
  catchBillingError (e : DBError) : ChargeOutcome :=
    if isBillingIdempotencyUniqueConstraintError e then .ok true
    else if isBillingIdempotencyNotNullRollbackError e then .ok false
    else .thrown e

/-- src/src/lib/db.ts, `updateBalanceIdempotent`, explicit
BEGIN/COMMIT/ROLLBACK fallback for stores without batch support: insert
the idempotency marker, conditionally decrement, roll the transaction
back when no row was affected, otherwise append the ledger row and
commit.  A UNIQUE violation is again success; other errors are rethrown
after the rollback. -/
def updateBalanceIdempotentTxn (s : DBState) (deviceId : String) (spend : Int)
    (reason meta idempotencyKey : String) : ChargeOutcome × DBState :=
  if spend ≤ 0 then (.ok true, s)
  else
    match insertBillingIdem s deviceId (some reason) idempotencyKey spend meta with
    | .error e =>
      (if isBillingIdempotencyUniqueConstraintError e then .ok true
       else .thrown e, s)
    | .ok s1 =>
      let t := condDecrement s1.credits deviceId spend
      if t.2 ≤ 0 then (.ok false, s)
      else
        (.ok true,
         recordLedger { s1 with credits := t.1 } deviceId (-spend) reason meta)

/-- A credit pack as looked up in the `packs` table (src/src/types/packs.ts);
only the `credits` field reaches the ledger code. -/
structure Pack where
  credits : Int
  deriving Repr, DecidableEq

/-- src/src/lib/db.ts, `creditDevice`: look the pack up (throwing on an
unknown id), upsert the balance by pack.credits, then record a positive
ledger entry whose reason is ADMIN_RESET or PACK_(id uppercased). -/
def creditDevice (packs : String → Option Pack) (s : DBState)
    (deviceId packId : String) (isAdminReset : Bool) : Except String DBState :=
  match packs packId with
  | none => .error ("Invalid pack ID for credit system: " ++ packId)
  | some pack =>
    let s1 := { s with credits := upsertAdd s.credits deviceId pack.credits }
    .ok (recordLedger s1 deviceId pack.credits
          (if isAdminReset then "ADMIN_RESET" else "PACK_" ++ packId.toUpper)
          (if isAdminReset then "pack" else "null"))

/-- src/src/lib/db.ts, `resetCreditsToZero`: read the current balance
(defaulting to 0), upsert the row to 0, and record a compensating
negative ledger entry only when the previous balance was positive. -/
def resetCreditsToZero (s : DBState) (deviceId : String) : DBState :=
  let currentBalance := (findVal s.credits deviceId).getD 0
  let s1 := { s with credits := upsertSetZero s.credits deviceId }
  if currentBalance > 0 then
    recordLedger s1 deviceId (-currentBalance) "ADMIN_RESET_TO_ZERO" "previousBalance"
  else s1

/-- One balance-mutating operation of the service: a pack grant, an admin
reset to zero, or one of the three charge entry points. -/
inductive BillingOp where
  | grant (deviceId packId : String) (isAdminReset : Bool)
  | reset (deviceId : String)
  | charge (deviceId : String) (spend : Int) (reason meta : String)
  | chargeIdem (deviceId : String) (spend : Int) (reason meta key : String)
  | chargeIdemTxn (deviceId : String) (spend : Int) (reason meta key : String)
  deriving Repr, DecidableEq

/-- Apply one operation to the database, keeping the state it leaves
behind (a grant with an unknown pack id throws before writing). -/
def applyOp (packs : String → Option Pack) (s : DBState) : BillingOp → DBState
  | .grant d p r =>
    match creditDevice packs s d p r with
    | .ok s1 => s1
    | .error _ => s
  | .reset d => resetCreditsToZero s d
  | .charge d a r m => (updateBalance s d a r m).2
  | .chargeIdem d a r m k => (updateBalanceIdempotent s d a r m k).2
  | .chargeIdemTxn d a r m k => (updateBalanceIdempotentTxn s d a r m k).2

/-- Run a whole sequence of operations from a starting state. -/
def applyOps (packs : String → Option Pack) (s : DBState)
    (ops : List BillingOp) : DBState :=
  ops.foldl (applyOp packs) s

/-- The accounting invariant of the ledger store: balances match ledger
sums and never go negative, and the credits PRIMARY KEY holds. -/
def Inv (s : DBState) : Prop :=
  keysNodup s.credits ∧
    ∀ d, balanceOf s d = ledgerSum s.credit_ledger d ∧ 0 ≤ balanceOf s d

/-! Pricing (src/src/lib/pricing.ts iteration that carries the
elevenlabs-scribe entry).  JavaScript float arithmetic is modelled with
exact rationals; both calibration factors are the source default 1.0. -/

/-- USD_PER_CREDIT = 10 / 350000. -/
def USD_PER_CREDIT : ℚ := 10 / 350000

/-- MARGIN = 2. -/
def MARGIN : ℚ := 2

/-- AUDIO_CREDIT_CALIBRATION = 1.0. -/
def AUDIO_CREDIT_CALIBRATION : ℚ := 1

/-- TOKEN_CREDIT_CALIBRATION = 1.0. -/
def TOKEN_CREDIT_CALIBRATION : ℚ := 1

/-- MODEL_PRICES, perSecond entries. -/
def perSecondPrice : String → Option ℚ
  | "whisper-1" => some (6 / 1000 / 60)
  | "elevenlabs-scribe" => some (27 / 100 / 3600)
  | _ => none

/-- MODEL_PRICES, token entries (in, out). -/
def tokenPrices : String → Option (ℚ × ℚ)
  | "gpt-5.1" => some (125 / 100 / 1000000, 10 / 1000000)
  | "claude-opus-4-5-20251101" => some (5 / 1000000, 25 / 1000000)
  | _ => none

/-- secondsToCredits: seconds * perSecond * MARGIN / USD_PER_CREDIT,
ceiled after calibration; a model without perSecond pricing throws,
modelled as none. -/
def secondsToCredits (seconds : ℚ) (model : String) : Option Int :=
  (perSecondPrice model).map fun p =>
    Int.ceil (seconds * p * MARGIN / USD_PER_CREDIT * AUDIO_CREDIT_CALIBRATION)

/-- tokensToCredits, with the gpt-5.1 fallback for unknown models. -/
def tokensToCredits (prompt completion : ℚ) (model : String) : Int :=
  match tokenPrices model with
  | some pr =>
    Int.ceil ((prompt * pr.1 + completion * pr.2) * MARGIN / USD_PER_CREDIT *
      TOKEN_CREDIT_CALIBRATION)
  | none =>
    Int.ceil ((prompt * (125 / 100 / 1000000 : ℚ) + completion * (10 / 1000000 : ℚ)) *
      MARGIN / USD_PER_CREDIT * TOKEN_CREDIT_CALIBRATION)

/-- src/src/lib/db.ts, `deductTranslationCredits`: convert tokens to
credits and run the plain charge with reason TRANSLATE. -/
def deductTranslationCredits (s : DBState) (deviceId : String)
    (promptTokens completionTokens : Int) (model : String) : Bool × DBState :=
  updateBalance s deviceId (tokensToCredits promptTokens completionTokens model)
    "TRANSLATE" "tokens"

/-- src/src/lib/db.ts, `deductTranscriptionCredits`: convert seconds to
credits and charge with reason TRANSCRIBE, idempotently when a key was
supplied. -/
def deductTranscriptionCredits (s : DBState) (deviceId : String)
    (seconds : Int) (model : String) (idempotencyKey : Option String) :
    ChargeOutcome × DBState :=
  match secondsToCredits (seconds : ℚ) model with
  | none => (.thrown (.otherFault ("No pricing defined for model: " ++ model)), s)
  | some spend =>
    match idempotencyKey with
    | some k => updateBalanceIdempotent s deviceId spend "TRANSCRIBE" "seconds" k
    | none =>
      let r := updateBalance s deviceId spend "TRANSCRIBE" "seconds"
      (.ok r.1, r.2)

/-! Event idempotency guard and the payment webhook handler
(src/unnamed/part_001; this is the guarded iteration of the handler, the
src/src/routes/webhook.ts iteration predates the processed-events
check).  Signature verification is transport-level and out of scope; the
handler is modelled from the verified event onwards. -/

/-- src/src/lib/db.ts, `isEventProcessed`. -/
def isEventProcessed (s : DBState) (eventId : String) : Bool :=
  s.processed_events.any fun p => p.1 = eventId

/-- src/src/lib/db.ts, `markEventProcessed`:
INSERT ... ON CONFLICT(event_id) DO NOTHING. -/
def markEventProcessed (s : DBState) (eventId eventType : String) : DBState :=
  if isEventProcessed s eventId then s
  else { s with processed_events := s.processed_events ++ [(eventId, eventType)] }

/-- A verified Stripe event as far as the handler reads it: the id, the
type string, and the checkout-session metadata. -/
structure StripeEvent where
  id : String
  type : String
  deviceId : Option String
  packId : Option String
  deriving Repr, DecidableEq

/-- `handleCheckoutCompleted`: missing metadata or an invalid pack id is
logged and swallowed (no write); otherwise the device is credited.  The
`grantFault` flag injects a storage-unavailable error thrown by the
store inside `creditDevice`, before any write is committed. -/
def handleCheckoutCompleted (packs : String → Option Pack) (grantFault : Bool)
    (s : DBState) (ev : StripeEvent) : Except String DBState :=
  match ev.deviceId, ev.packId with
  | some d, some p =>
    if (packs p).isSome then
      if grantFault then .error "storage-unavailable"
      else creditDevice packs s d p false
    else .ok s
  | _, _ => .ok s

/-- The switch over event types: checkout.session.completed credits the
device; payment_intent events only log. -/
def handleEventBody (packs : String → Option Pack) (grantFault : Bool)
    (s : DBState) (ev : StripeEvent) : Except String DBState :=
  if ev.type = "checkout.session.completed" then
    handleCheckoutCompleted packs grantFault s ev
  else .ok s

/-- Response of one webhook delivery, with a ghost flag recording
whether the handler body (the switch) was entered. -/
structure WebhookRun where
  status : Nat
  body : String
  invokedHandler : Bool
  deriving Repr, DecidableEq

/-- The POST handler of the payment webhook (guarded iteration): check
the processed-events guard first and short-circuit with success;
otherwise run the switch and, only when it completed, mark the event
processed (the finally block with processed = true); a thrown handler
error reaches the catch as a 500 with the event unmarked. -/
def stripeWebhookPost (packs : String → Option Pack) (grantFault : Bool)
    (s : DBState) (ev : StripeEvent) : WebhookRun × DBState :=
  if isEventProcessed s ev.id then
    (⟨200, "already-processed", false⟩, s)
  else
    match handleEventBody packs grantFault s ev with
    | .ok s1 => (⟨200, "received", true⟩, markEventProcessed s1 ev.id ev.type)
    | .error _ => (⟨500, "webhook-processing-failed", true⟩, s)

/-! Generic job-table access: every job update in db.ts is an UPDATE of
the rows whose job_id matches, and every read takes the first match. -/

/-- SELECT the first row whose key matches. -/
def findByKey {α : Type} (key : α → String) : List α → String → Option α
  | [], _ => none
  | x :: rest, k => if key x = k then some x else findByKey key rest k

/-- UPDATE every row whose key matches. -/
def updateByKey {α : Type} (key : α → String) (l : List α) (k : String)
    (f : α → α) : List α :=
  l.map fun x => if key x = k then f x else x

/-- src/src/lib/db.ts, `getTranslationJob`. -/
def getTranslationJob (s : DBState) (jobId : String) : Option TranslationJob :=
  findByKey (fun j => j.job_id) s.translation_jobs jobId

/-- src/src/lib/db.ts, `storeTranslationJobResult`: status completed,
result stored, error cleared, token counts recorded. -/
def storeTranslationJobResult (s : DBState) (jobId : String) (result : String)
    (pt ct : Option Int) : DBState :=
  { s with translation_jobs :=
      (updateByKey (fun j => j.job_id) s.translation_jobs jobId fun j =>
        { j with status := "completed", result := some result, error := none,
                 prompt_tokens := pt, completion_tokens := ct }) }

/-- src/src/lib/db.ts, `storeTranslationJobError`: status failed, error
message recorded. -/
def storeTranslationJobError (s : DBState) (jobId message : String) : DBState :=
  { s with translation_jobs :=
      (updateByKey (fun j => j.job_id) s.translation_jobs jobId fun j =>
        { j with status := "failed", error := some message }) }

/-- src/src/lib/db.ts, `markTranslationJobCredited`. -/
def markTranslationJobCredited (s : DBState) (jobId : String) : DBState :=
  { s with translation_jobs :=
      (updateByKey (fun j => j.job_id) s.translation_jobs jobId fun j =>
        { j with credited := true }) }

/-- Math.ceil(s.length / 4), the token estimators of
src/unnamed/part_000. -/
def estimateTokensFromLength (n : Nat) : Int := ((n + 3) / 4 : Nat)

/-- The relay chat completion as far as `persistCompletion` reads it. -/
structure ChatCompletion where
  content : String
  usagePrompt : Option Int
  usageCompletion : Option Int
  deriving Repr, DecidableEq

/-- Outcome of `persistCompletion`. -/
inductive PersistOutcome where
  | ok
  | error (code : Nat) (message : String)
  deriving Repr, DecidableEq

/-- src/unnamed/part_000, `persistCompletion`: store the completed
result first, then, unless the job was already credited, charge the
owner; a declined charge overwrites the job to failed with the
insufficient-credits message and reports a 402 error. -/
def persistCompletion (s : DBState) (jobId jobOwner model payload : String)
    (completion : ChatCompletion) : PersistOutcome × DBState :=
  let promptTokens :=
    completion.usagePrompt.getD (estimateTokensFromLength payload.length)
  let completionTokens :=
    completion.usageCompletion.getD (estimateTokensFromLength completion.content.length)
  let s1 := storeTranslationJobResult s jobId completion.content
    (some promptTokens) (some completionTokens)
  match getTranslationJob s1 jobId with
  | none => (.error 500 "Job not found", s1)
  | some job =>
    if job.credited then (.ok, s1)
    else
      let r := deductTranslationCredits s1 jobOwner promptTokens completionTokens model
      if r.1 then (.ok, markTranslationJobCredited r.2 jobId)
      else (.error 402 "insufficient-credits",
            storeTranslationJobError r.2 jobId "insufficient-credits")

/-! Transcription jobs and the relay completion webhook
(src/src/routes/transcribe.ts). -/

/-- src/src/lib/db.ts, `getTranscriptionJob`. -/
def getTranscriptionJob (s : DBState) (jobId : String) : Option TranscriptionJob :=
  findByKey (fun j => j.job_id) s.transcription_jobs jobId

/-- src/src/lib/db.ts, `storeTranscriptionJobResult`. -/
def storeTranscriptionJobResult (s : DBState) (jobId : String)
    (result : TranscriptPayload) (durationSeconds : Option Int) : DBState :=
  { s with transcription_jobs :=
      (updateByKey (fun j => j.job_id) s.transcription_jobs jobId fun j =>
        { j with status := "completed", result := some result,
                 duration_seconds := durationSeconds, error := none }) }

/-- src/src/lib/db.ts, `storeTranscriptionJobError`. -/
def storeTranscriptionJobError (s : DBState) (jobId message : String) : DBState :=
  { s with transcription_jobs :=
      (updateByKey (fun j => j.job_id) s.transcription_jobs jobId fun j =>
        { j with status := "failed", error := some message }) }

/-- Fold of the word timings keeping the largest end timestamp seen. -/
def maxEndWords (ws : List WordTiming) (acc : ℚ) : ℚ :=
  ws.foldl (fun m w => match w.endTime with
    | some e => if e > m then e else m
    | none => m) acc

/-- Fold of the segments, including their nested word timings. -/
def maxEndSegments (ss : List SegmentTiming) (acc : ℚ) : ℚ :=
  ss.foldl (fun m seg =>
    let m1 := match seg.endTime with
      | some e => if e > m then e else m
      | none => m
    maxEndWords (seg.words.getD []) m1) acc

/-- src/src/routes/transcribe.ts, `deriveDurationSecondsFromTimings`:
the largest end timestamp across segments, nested words and top-level
words, or none when that maximum is not positive. -/
def deriveDurationSecondsFromTimings (p : TranscriptPayload) : Option ℚ :=
  let m1 := maxEndSegments (p.segments.getD []) 0
  let m2 := maxEndWords (p.words.getD []) m1
  if m2 ≤ 0 then none else some m2

/-- payload.duration ?? payload.approx_duration. -/
def rawDuration (p : TranscriptPayload) : Option ℚ :=
  match p.duration with
  | some v => some v
  | none => p.approx_duration

/-- Does the payload carry transcribed content (non-blank text, a
non-empty segments array, or a non-empty words array)?  The source
checks text.trim().length > 0, i.e. the text holds at least one
non-whitespace character. -/
def hasTranscribedContent (p : TranscriptPayload) : Bool :=
  (match p.text with
   | some t => t.toList.any fun c => ¬c.isWhitespace
   | none => false) ||
  (match p.segments with
   | some ss => ss.length > 0
   | none => false) ||
  (match p.words with
   | some ws => ws.length > 0
   | none => false)

/-- src/src/routes/transcribe.ts, `getBillingDurationSeconds`: prefer a
positive explicit duration, then derived timings; with no content at all
return 0, and with content but no determinable duration return none
(fail closed). -/
def getBillingDurationSeconds (p : TranscriptPayload) : Option ℚ :=
  let afterRaw :=
    match deriveDurationSecondsFromTimings p with
    | some d => some d
    | none => if hasTranscribedContent p then none else some 0
  match rawDuration p with
  | some v => if 0 < v then some v else afterRaw
  | none => afterRaw

/-- The responses of POST /webhook/:jobId, tagged by the JSON body the
route returns. -/
inductive TWebhookResp where
  | jobNotFound
  | errorRecorded
  | billingDurationUnavailable
  | insufficientCredits
  | success
  | processingFailed
  deriving Repr, DecidableEq

/-- The HTTP status attached to each webhook response. -/
def TWebhookResp.httpStatus : TWebhookResp → Nat
  | .jobNotFound => 404
  | .errorRecorded => 200
  | .billingDurationUnavailable => 500
  | .insufficientCredits => 402
  | .success => 200
  | .processingFailed => 500

/-- src/src/routes/transcribe.ts, POST /webhook/:jobId (relay secret
already verified; R2 object cleanup is external storage and out of the
database model).  A job in a non-processing state is logged with a
warning and still processed.  Failure reports record the error; success
reports are billed with jobId as the idempotency key before the result
is stored; a missing billing duration fails the job closed. -/
def transcribeWebhookPost (s : DBState) (jobId : String) (success : Bool)
    (result : TranscriptPayload) (error : Option String) :
    TWebhookResp × DBState :=
  match getTranscriptionJob s jobId with
  | none => (.jobNotFound, s)
  | some job =>
    if success = false then
      (.errorRecorded, storeTranscriptionJobError s jobId
        (match error with
         | some e => if e = "" then "Transcription failed" else e
         | none => "Transcription failed"))
    else
      match getBillingDurationSeconds result with
      | none =>
        (.billingDurationUnavailable,
         storeTranscriptionJobError s jobId "billing-duration-unavailable")
      | some dur =>
        let seconds : Int := Int.ceil dur
        let r := deductTranscriptionCredits s job.device_id seconds
          "elevenlabs-scribe" (some jobId)
        match r.1 with
        | .ok true =>
          (.success, storeTranscriptionJobResult r.2 jobId result (some seconds))
        | .ok false =>
          (.insufficientCredits,
           storeTranscriptionJobError r.2 jobId "Insufficient credits")
        | .thrown _ => (.processingFailed, r.2)

/-! The synchronous POST / transcription handler: the ElevenLabs to
OpenAI-relay to direct-call cascade and the billing that tags the model
and provider actually used. -/

/-- Outcome of one provider attempt, as the surrounding try/catch
distinguishes them: a payload, a thrown non-abort error, or an abort
(client cancellation or server timeout via the shared signal). -/
inductive ProviderOutcome where
  | success (t : TranscriptPayload)
  | failure (msg : String)
  | aborted
  deriving Repr, DecidableEq

/-- The observable result of one synchronous transcription request. -/
structure SyncRun where
  status : Nat
  errorTag : Option String
  returned : Option TranscriptPayload
  billedModel : Option String
  provider : Option String
  invokedEleven : Bool
  invokedRelay : Bool
  invokedDirect : Bool
  deriving Repr, DecidableEq

/-- The billing tail of POST / (lines 526..563): refuse to return a
result without a billable duration, charge on the model actually used,
and tag the response with that model and provider. -/
def finalizeTranscription (s : DBState) (deviceId model : String)
    (idempotencyKey : Option String) (t : TranscriptPayload)
    (usedElevenLabs : Bool) (invEleven invRelay invDirect : Bool) :
    SyncRun × DBState :=
  match getBillingDurationSeconds t with
  | none =>
    (⟨502, some "billing-duration-unavailable", none, none, none,
      invEleven, invRelay, invDirect⟩, s)
  | some dur =>
    let seconds : Int := Int.ceil dur
    let billed := if usedElevenLabs then "elevenlabs-scribe" else model
    let r := deductTranscriptionCredits s deviceId seconds billed idempotencyKey
    match r.1 with
    | .ok true =>
      (⟨200, none, some t, some billed,
        some (if usedElevenLabs then "ElevenLabs" else "OpenAI"),
        invEleven, invRelay, invDirect⟩, r.2)
    | .ok false =>
      (⟨402, some "INSUFFICIENT_CREDITS", none, none, none,
        invEleven, invRelay, invDirect⟩, r.2)
    | .thrown _ =>
      (⟨500, some "Failed to create transcription", none, none, none,
        invEleven, invRelay, invDirect⟩, r.2)

/-- src/src/routes/transcribe.ts, POST / from the provider cascade on:
try ElevenLabs Scribe, fall back to the OpenAI relay on any non-abort
error, then to the direct OpenAI call; aborts surface as 408 and a
fully failed chain as 500 (the rethrown relay error). -/
def transcribePost (s : DBState) (deviceId model : String)
    (idempotencyKey : Option String)
    (eleven relay direct : ProviderOutcome) : SyncRun × DBState :=
  match eleven with
  | .success t =>
    finalizeTranscription s deviceId model idempotencyKey t true true false false
  | .aborted =>
    (⟨408, some "Request cancelled or timed out", none, none, none,
      true, false, false⟩, s)
  | .failure _ =>
    match relay with
    | .success t =>
      finalizeTranscription s deviceId model idempotencyKey t false true true false
    | .aborted =>
      (⟨408, some "Request cancelled or timed out", none, none, none,
        true, true, false⟩, s)
    | .failure _ =>
      match direct with
      | .success t =>
        finalizeTranscription s deviceId model idempotencyKey t false true true true
      | .aborted =>
        (⟨408, some "Request cancelled or timed out", none, none, none,
          true, true, true⟩, s)
      | .failure _ =>
        (⟨500, some "Failed to create transcription", none, none, none,
          true, true, true⟩, s)

end Stage5

namespace Stage5.Pool

/-! src/src/routes/dub.ts, `synthesizeSegmentsDirect`: a fixed number of
logical workers share a cursor over the segments.  Each worker loops:
stop if the signal is aborted, take the next index, stop when the list
is exhausted, run the item; on success push the result and loop, on an
error push the error and stop (only that worker stops).

The single-threaded event loop constrains the interleavings.  The
Array.from construction runs every worker body synchronously up to its
first await (an aborted signal at entry makes the whole function throw
before the pool is built, and no abort can land during this synchronous
phase), so every worker takes its first item before any item outcome is
delivered.  Afterwards one settled outcome is delivered at a time, and
the continuation it wakes runs synchronously through the loop head —
pushing the outcome and either taking the next index or returning —
before any other event runs.  A schedule is therefore the delivery
order of item outcomes, with the client abort allowed to land between
deliveries; the outcome of item i is given by the `fails` list. -/

end Stage5.Pool

namespace Stage5

section ListLemmas

theorem findVal_eq_none_iff (l : List (String × Int)) (d : String) :
    findVal l d = none ↔ d ∉ l.map Prod.fst := by
  induction l with
  | nil => simp [findVal]
  | cons p rest ih =>
    by_cases h : p.1 = d
    · simp [findVal, h]
    · simp only [findVal, if_neg h, ih, List.map_cons, List.mem_cons]
      constructor
      · exact fun hn hc => hc.elim (fun he => h he.symm) hn
      · exact fun hn hm => hn (Or.inr hm)

theorem condDecrement_keys (l : List (String × Int)) (d : String) (a : Int) :
    (condDecrement l d a).1.map Prod.fst = l.map Prod.fst := by
  induction l with
  | nil => simp [condDecrement]
  | cons p rest ih =>
    by_cases h : p.1 = d ∧ a ≤ p.2 <;> simp [condDecrement, h, ih]

theorem condDecrement_of_not_mem (l : List (String × Int)) (d : String) (a : Int)
    (h : d ∉ l.map Prod.fst) : condDecrement l d a = (l, 0) := by
  induction l with
  | nil => simp [condDecrement]
  | cons p rest ih =>
    simp only [List.map_cons, List.mem_cons] at h
    push_neg at h
    have h1 : ¬(p.1 = d ∧ a ≤ p.2) := fun hc => h.1 hc.1.symm
    simp [condDecrement, h1, ih h.2]

theorem findVal_condDecrement_self (l : List (String × Int)) (d : String)
    (a b : Int) (h : findVal l d = some b) :
    findVal (condDecrement l d a).1 d = some (if a ≤ b then b - a else b) := by
  induction l with
  | nil => simp [findVal] at h
  | cons p rest ih =>
    by_cases hd : p.1 = d
    · simp only [findVal, if_pos hd] at h
      cases h
      by_cases ha : a ≤ p.2
      · simp [condDecrement, hd, ha, findVal]
      · have : ¬(p.1 = d ∧ a ≤ p.2) := fun hc => ha hc.2
        simp [condDecrement, this, findVal, hd, ha]
    · simp only [findVal, if_neg hd] at h
      have : ¬(p.1 = d ∧ a ≤ p.2) := fun hc => hd hc.1
      simp [condDecrement, this, findVal, hd, ih h]

theorem findVal_condDecrement_other (l : List (String × Int)) (d e : String)
    (a : Int) (h : e ≠ d) :
    findVal (condDecrement l d a).1 e = findVal l e := by
  induction l with
  | nil => simp [condDecrement]
  | cons p rest ih =>
    by_cases hc : p.1 = d ∧ a ≤ p.2
    · have hpe : p.1 ≠ e := by rw [hc.1]; exact Ne.symm h
      simp [condDecrement, hc, findVal, hpe, Ne.symm h, ih]
    · simp only [condDecrement, if_neg hc]
      by_cases hp : p.1 = e <;> simp [findVal, hp, ih]

theorem condDecrement_changes (l : List (String × Int)) (d : String)
    (a b : Int) (hnd : keysNodup l) (h : findVal l d = some b) :
    (condDecrement l d a).2 = if a ≤ b then 1 else 0 := by
  induction l with
  | nil => simp [findVal] at h
  | cons p rest ih =>
    have hnd2 : keysNodup rest := (List.nodup_cons.mp hnd).2
    by_cases hd : p.1 = d
    · simp only [findVal, if_pos hd] at h
      cases h
      have hmem : d ∉ rest.map Prod.fst := by
        have := (List.nodup_cons.mp hnd).1
        rwa [hd] at this
      have hrest := condDecrement_of_not_mem rest d a hmem
      by_cases ha : a ≤ p.2
      · simp [condDecrement, hd, ha, hrest]
      · have : ¬(p.1 = d ∧ a ≤ p.2) := fun hc => ha hc.2
        simp [condDecrement, this, hrest, ha]
    · simp only [findVal, if_neg hd] at h
      have : ¬(p.1 = d ∧ a ≤ p.2) := fun hc => hd hc.1
      simp [condDecrement, this, ih hnd2 h]

theorem condDecrement_of_lt (l : List (String × Int)) (d : String) (a b : Int)
    (hnd : keysNodup l) (h : findVal l d = some b) (hb : b < a) :
    condDecrement l d a = (l, 0) := by
  induction l with
  | nil => simp [findVal] at h
  | cons p rest ih =>
    have hnd2 : keysNodup rest := (List.nodup_cons.mp hnd).2
    by_cases hd : p.1 = d
    · simp only [findVal, if_pos hd] at h
      cases h
      have hmem : d ∉ rest.map Prod.fst := by
        have := (List.nodup_cons.mp hnd).1
        rwa [hd] at this
      have hrest := condDecrement_of_not_mem rest d a hmem
      have : ¬(p.1 = d ∧ a ≤ p.2) := fun hc => absurd hc.2 (not_le.mpr hb)
      simp [condDecrement, this, hrest]
    · simp only [findVal, if_neg hd] at h
      have : ¬(p.1 = d ∧ a ≤ p.2) := fun hc => hd hc.1
      simp [condDecrement, this, ih hnd2 h]

theorem findVal_upsertAdd_self (l : List (String × Int)) (d : String) (a : Int) :
    findVal (upsertAdd l d a) d = some ((findVal l d).getD 0 + a) := by
  induction l with
  | nil => simp [upsertAdd, findVal]
  | cons p rest ih =>
    by_cases hd : p.1 = d
    · simp [upsertAdd, hd, findVal]
    · simp [upsertAdd, hd, findVal, ih]

theorem findVal_upsertAdd_other (l : List (String × Int)) (d e : String)
    (a : Int) (h : e ≠ d) :
    findVal (upsertAdd l d a) e = findVal l e := by
  induction l with
  | nil => simp [upsertAdd, findVal, Ne.symm h]
  | cons p rest ih =>
    by_cases hd : p.1 = d
    · have hpe : ¬p.1 = e := by rw [hd]; exact Ne.symm h
      simp [upsertAdd, hd, findVal, hpe, Ne.symm h]
    · by_cases hp : p.1 = e <;> simp [upsertAdd, hd, findVal, hp, ih, h]

theorem upsertAdd_keys (l : List (String × Int)) (d : String) (a : Int) :
    (upsertAdd l d a).map Prod.fst =
      if d ∈ l.map Prod.fst then l.map Prod.fst
      else l.map Prod.fst ++ [d] := by
  induction l with
  | nil => simp [upsertAdd]
  | cons q tl ihq =>
    by_cases hq : q.1 = d
    · simp [upsertAdd, hq]
    · simp only [upsertAdd, if_neg hq, List.map_cons, ihq]
      by_cases hm : d ∈ tl.map Prod.fst <;>
        simp [hm, hq, Ne.symm hq]

theorem nodup_keys_append_new (ks : List String) (d : String)
    (h : ks.Nodup) (hm : d ∉ ks) : (ks ++ [d]).Nodup := by
  refine List.Nodup.append h (List.nodup_singleton d) ?_
  intro x hx hmem
  simp only [List.mem_singleton] at hmem
  exact hm (hmem ▸ hx)

theorem upsertAdd_keys_nodup (l : List (String × Int)) (d : String) (a : Int)
    (h : keysNodup l) : keysNodup (upsertAdd l d a) := by
  unfold keysNodup at h ⊢
  rw [upsertAdd_keys]
  by_cases hm : d ∈ l.map Prod.fst
  · simpa [hm] using h
  · simpa [hm] using nodup_keys_append_new _ d h hm

theorem findVal_upsertSetZero_self (l : List (String × Int)) (d : String) :
    findVal (upsertSetZero l d) d = some 0 := by
  induction l with
  | nil => simp [upsertSetZero, findVal]
  | cons p rest ih =>
    by_cases hd : p.1 = d <;> simp [upsertSetZero, hd, findVal, ih]

theorem findVal_upsertSetZero_other (l : List (String × Int)) (d e : String)
    (h : e ≠ d) : findVal (upsertSetZero l d) e = findVal l e := by
  induction l with
  | nil => simp [upsertSetZero, findVal, Ne.symm h]
  | cons p rest ih =>
    by_cases hd : p.1 = d
    · have hpe : ¬p.1 = e := by rw [hd]; exact Ne.symm h
      simp [upsertSetZero, hd, findVal, hpe, Ne.symm h]
    · by_cases hp : p.1 = e <;> simp [upsertSetZero, hd, findVal, hp, ih, h]

theorem upsertSetZero_keys (l : List (String × Int)) (d : String) :
    (upsertSetZero l d).map Prod.fst =
      if d ∈ l.map Prod.fst then l.map Prod.fst
      else l.map Prod.fst ++ [d] := by
  induction l with
  | nil => simp [upsertSetZero]
  | cons q tl ihq =>
    by_cases hq : q.1 = d
    · simp [upsertSetZero, hq]
    · simp only [upsertSetZero, if_neg hq, List.map_cons, ihq]
      by_cases hm : d ∈ tl.map Prod.fst <;>
        simp [hm, hq, Ne.symm hq]

theorem upsertSetZero_keys_nodup (l : List (String × Int)) (d : String)
    (h : keysNodup l) : keysNodup (upsertSetZero l d) := by
  unfold keysNodup at h ⊢
  rw [upsertSetZero_keys]
  by_cases hm : d ∈ l.map Prod.fst
  · simpa [hm] using h
  · simpa [hm] using nodup_keys_append_new _ d h hm

theorem ledgerSum_append (xs ys : List LedgerRow) (d : String) :
    ledgerSum (xs ++ ys) d = ledgerSum xs d + ledgerSum ys d := by
  induction xs with
  | nil => simp [ledgerSum]
  | cons r rest ih => simp [ledgerSum, ih]; ring

theorem ledgerSum_single_mk (dv : String) (delta : Int) (r m d : String) :
    ledgerSum [⟨dv, delta, r, m⟩] d = if dv = d then delta else 0 := by
  simp [ledgerSum]

theorem ledgerSum_single (r : LedgerRow) (d : String) :
    ledgerSum [r] d = if r.device_id = d then r.delta else 0 := by
  simp [ledgerSum]

end ListLemmas

section ChargeLemmas

theorem catchBillingError_unique :
    updateBalanceIdempotent.catchBillingError .uniqueBillingIdempotency = .ok true := by
  decide

theorem catchBillingError_notNull :
    updateBalanceIdempotent.catchBillingError .notNullBillingIdempotencyReason =
      .ok false := by
  decide

theorem updateBalance_nonpos (s : DBState) (d reason meta : String) (a : Int)
    (h : a ≤ 0) : updateBalance s d a reason meta = (true, s) := by
  simp [updateBalance, h]

theorem updateBalance_success (s : DBState) (d reason meta : String) (a b : Int)
    (h0 : 0 < a) (hnd : keysNodup s.credits)
    (hb : findVal s.credits d = some b) (hba : a ≤ b) :
    updateBalance s d a reason meta =
      (true, { s with credits := (condDecrement s.credits d a).1,
                      credit_ledger := s.credit_ledger ++ [⟨d, -a, reason, meta⟩] }) := by
  have hch := condDecrement_changes s.credits d a b hnd hb
  simp [updateBalance, not_le.mpr h0, hch, hba, recordLedger]

theorem updateBalance_insufficient (s : DBState) (d reason meta : String)
    (a b : Int) (h0 : 0 < a) (hnd : keysNodup s.credits)
    (hb : findVal s.credits d = some b) (hba : b < a) :
    updateBalance s d a reason meta = (false, s) := by
  have hch := condDecrement_changes s.credits d a b hnd hb
  simp [updateBalance, not_le.mpr h0, hch, not_le.mpr hba]

theorem updateBalance_norow (s : DBState) (d reason meta : String) (a : Int)
    (h0 : 0 < a) (hb : findVal s.credits d = none) :
    updateBalance s d a reason meta = (false, s) := by
  have hm := condDecrement_of_not_mem s.credits d a ((findVal_eq_none_iff _ _).mp hb)
  simp [updateBalance, not_le.mpr h0, hm]

theorem chargeIdem_nonpos (s : DBState) (d reason meta key : String) (a : Int)
    (h : a ≤ 0) : updateBalanceIdempotent s d a reason meta key = (.ok true, s) := by
  simp [updateBalanceIdempotent, h]

theorem chargeIdem_duplicate (s : DBState) (d reason meta key : String) (a : Int)
    (hk : hasBillingKey s d reason key = true) :
    updateBalanceIdempotent s d a reason meta key = (.ok true, s) := by
  by_cases h : a ≤ 0
  · simp [updateBalanceIdempotent, h]
  · simp [updateBalanceIdempotent, h, insertBillingIdem, hk, catchBillingError_unique]

theorem chargeIdem_success (s : DBState) (d reason meta key : String) (a b : Int)
    (h0 : 0 < a) (hk : hasBillingKey s d reason key = false)
    (hnd : keysNodup s.credits) (hb : findVal s.credits d = some b) (hba : a ≤ b) :
    updateBalanceIdempotent s d a reason meta key =
      (.ok true,
       { s with credits := (condDecrement s.credits d a).1,
                billing_idempotency :=
                  s.billing_idempotency ++ [⟨d, reason, key, a, meta⟩],
                credit_ledger := s.credit_ledger ++ [⟨d, -a, reason, meta⟩] }) := by
  have hch := condDecrement_changes s.credits d a b hnd hb
  simp [updateBalanceIdempotent, not_le.mpr h0, insertBillingIdem, hk,
        conditionalNullReasonInsert, hch, hba, recordLedger]

theorem chargeIdem_insufficient (s : DBState) (d reason meta key : String)
    (a b : Int) (h0 : 0 < a) (hk : hasBillingKey s d reason key = false)
    (hnd : keysNodup s.credits) (hb : findVal s.credits d = some b) (hba : b < a) :
    updateBalanceIdempotent s d a reason meta key = (.ok false, s) := by
  have hch := condDecrement_changes s.credits d a b hnd hb
  simp [updateBalanceIdempotent, not_le.mpr h0, insertBillingIdem, hk,
        conditionalNullReasonInsert, hch, not_le.mpr hba, catchBillingError_notNull]

theorem chargeIdem_norow (s : DBState) (d reason meta key : String) (a : Int)
    (h0 : 0 < a) (hk : hasBillingKey s d reason key = false)
    (hb : findVal s.credits d = none) :
    updateBalanceIdempotent s d a reason meta key = (.ok false, s) := by
  have hm := condDecrement_of_not_mem s.credits d a ((findVal_eq_none_iff _ _).mp hb)
  simp [updateBalanceIdempotent, not_le.mpr h0, insertBillingIdem, hk,
        conditionalNullReasonInsert, hm, catchBillingError_notNull]

theorem chargeIdemTxn_nonpos (s : DBState) (d reason meta key : String) (a : Int)
    (h : a ≤ 0) :
    updateBalanceIdempotentTxn s d a reason meta key = (.ok true, s) := by
  simp [updateBalanceIdempotentTxn, h]

theorem chargeIdemTxn_duplicate (s : DBState) (d reason meta key : String)
    (a : Int) (hk : hasBillingKey s d reason key = true) :
    updateBalanceIdempotentTxn s d a reason meta key = (.ok true, s) := by
  by_cases h : a ≤ 0
  · simp [updateBalanceIdempotentTxn, h]
  · simp [updateBalanceIdempotentTxn, h, insertBillingIdem, hk,
          isBillingIdempotencyUniqueConstraintError, strIncludes, DBError.message,
          charsInclude, charsStartWith]

theorem chargeIdemTxn_success (s : DBState) (d reason meta key : String)
    (a b : Int) (h0 : 0 < a) (hk : hasBillingKey s d reason key = false)
    (hnd : keysNodup s.credits) (hb : findVal s.credits d = some b) (hba : a ≤ b) :
    updateBalanceIdempotentTxn s d a reason meta key =
      (.ok true,
       { s with credits := (condDecrement s.credits d a).1,
                billing_idempotency :=
                  s.billing_idempotency ++ [⟨d, reason, key, a, meta⟩],
                credit_ledger := s.credit_ledger ++ [⟨d, -a, reason, meta⟩] }) := by
  have hch := condDecrement_changes s.credits d a b hnd hb
  simp [updateBalanceIdempotentTxn, not_le.mpr h0, insertBillingIdem, hk,
        hch, hba, recordLedger]

theorem chargeIdemTxn_insufficient (s : DBState) (d reason meta key : String)
    (a b : Int) (h0 : 0 < a) (hk : hasBillingKey s d reason key = false)
    (hnd : keysNodup s.credits) (hb : findVal s.credits d = some b) (hba : b < a) :
    updateBalanceIdempotentTxn s d a reason meta key = (.ok false, s) := by
  have hch := condDecrement_changes s.credits d a b hnd hb
  simp [updateBalanceIdempotentTxn, not_le.mpr h0, insertBillingIdem, hk,
        hch, not_le.mpr hba]

theorem chargeIdemTxn_norow (s : DBState) (d reason meta key : String) (a : Int)
    (h0 : 0 < a) (hk : hasBillingKey s d reason key = false)
    (hb : findVal s.credits d = none) :
    updateBalanceIdempotentTxn s d a reason meta key = (.ok false, s) := by
  have hm := condDecrement_of_not_mem s.credits d a ((findVal_eq_none_iff _ _).mp hb)
  simp [updateBalanceIdempotentTxn, not_le.mpr h0, insertBillingIdem, hk, hm]

end ChargeLemmas

section InvLemmas

theorem Inv_init : Inv DBState.init := by
  refine ⟨by simp [keysNodup, DBState.init], fun d => ?_⟩
  simp [balanceOf, DBState.init, findVal, ledgerSum]

theorem Inv_success_state (s : DBState) (dv reason meta : String) (a b : Int)
    (bi : List BillingIdemRow)
    (hnd : keysNodup s.credits) (hb : findVal s.credits dv = some b) (hba : a ≤ b)
    (hbal : ∀ e, balanceOf s e = ledgerSum s.credit_ledger e ∧ 0 ≤ balanceOf s e) :
    Inv { s with credits := (condDecrement s.credits dv a).1,
                 billing_idempotency := bi,
                 credit_ledger := s.credit_ledger ++ [⟨dv, -a, reason, meta⟩] } := by
  refine ⟨?_, fun e => ?_⟩
  · unfold keysNodup
    simpa [condDecrement_keys] using hnd
  · obtain ⟨hbe, hge⟩ := hbal e
    by_cases he : e = dv
    · subst he
      simp only [balanceOf, hb, Option.getD_some] at hbe hge
      simp only [balanceOf, findVal_condDecrement_self s.credits e a b hb,
                 if_pos hba, ledgerSum_append, ledgerSum_single_mk, if_pos rfl,
                 if_true, Option.getD_some]
      omega
    · have hd : ¬dv = e := fun h => he h.symm
      simp only [balanceOf] at hbe hge
      simp only [balanceOf, findVal_condDecrement_other s.credits dv e a he,
                 ledgerSum_append, ledgerSum_single_mk, if_neg hd, add_zero]
      exact ⟨hbe, hge⟩

theorem Inv_creditDevice (packs : String → Option Pack)
    (hpk : ∀ pid p, packs pid = some p → 0 ≤ p.credits)
    (s : DBState) (dv pid : String) (adm : Bool) (s2 : DBState)
    (hok : creditDevice packs s dv pid adm = .ok s2) (hinv : Inv s) : Inv s2 := by
  obtain ⟨hnd, hbal⟩ := hinv
  unfold creditDevice at hok
  cases hp : packs pid with
  | none => rw [hp] at hok; exact absurd hok (by simp)
  | some pack =>
    rw [hp] at hok
    simp only [Except.ok.injEq] at hok
    subst hok
    have hc := hpk pid pack hp
    refine ⟨?_, fun e => ?_⟩
    · simpa [recordLedger] using upsertAdd_keys_nodup s.credits dv pack.credits hnd
    · obtain ⟨hbe, hge⟩ := hbal e
      simp only [balanceOf] at hbe hge
      by_cases he : e = dv
      · subst he
        simp only [balanceOf, recordLedger, findVal_upsertAdd_self,
                   ledgerSum_append, ledgerSum_single_mk, if_pos rfl, if_true,
                   Option.getD_some]
        omega
      · have hd : ¬dv = e := fun h => he h.symm
        simp only [balanceOf, recordLedger, findVal_upsertAdd_other _ _ _ _ he,
                   ledgerSum_append, ledgerSum_single_mk, if_neg hd, add_zero]
        exact ⟨hbe, hge⟩

theorem Inv_reset (s : DBState) (dv : String) (hinv : Inv s) :
    Inv (resetCreditsToZero s dv) := by
  obtain ⟨hnd, hbal⟩ := hinv
  obtain ⟨hbd, hgd⟩ := hbal dv
  simp only [balanceOf] at hbd hgd
  unfold resetCreditsToZero
  by_cases hpos : (findVal s.credits dv).getD 0 > 0
  · simp only [if_pos hpos]
    refine ⟨?_, fun e => ?_⟩
    · simpa [recordLedger] using upsertSetZero_keys_nodup s.credits dv hnd
    · obtain ⟨hbe, hge⟩ := hbal e
      simp only [balanceOf] at hbe hge
      by_cases he : e = dv
      · subst he
        simp only [balanceOf, recordLedger, findVal_upsertSetZero_self,
                   ledgerSum_append, ledgerSum_single_mk, if_pos rfl, if_true,
                   Option.getD_some]
        omega
      · have hd : ¬dv = e := fun h => he h.symm
        simp only [balanceOf, recordLedger, findVal_upsertSetZero_other _ _ _ he,
                   ledgerSum_append, ledgerSum_single_mk, if_neg hd, add_zero]
        exact ⟨hbe, hge⟩
  · simp only [if_neg hpos]
    refine ⟨upsertSetZero_keys_nodup s.credits dv hnd, fun e => ?_⟩
    obtain ⟨hbe, hge⟩ := hbal e
    simp only [balanceOf] at hbe hge
    by_cases he : e = dv
    · subst he
      simp only [balanceOf, findVal_upsertSetZero_self, Option.getD_some]
      omega
    · simp only [balanceOf, findVal_upsertSetZero_other _ _ _ he]
      exact ⟨hbe, hge⟩

theorem Inv_updateBalance (s : DBState) (dv reason meta : String) (a : Int)
    (hinv : Inv s) : Inv (updateBalance s dv a reason meta).2 := by
  obtain ⟨hnd, hbal⟩ := hinv
  by_cases h0 : a ≤ 0
  · simpa [updateBalance_nonpos s dv reason meta a h0] using ⟨hnd, hbal⟩
  push_neg at h0
  cases hb : findVal s.credits dv with
  | none => simpa [updateBalance_norow s dv reason meta a h0 hb] using ⟨hnd, hbal⟩
  | some b =>
    by_cases hba : a ≤ b
    · rw [updateBalance_success s dv reason meta a b h0 hnd hb hba]
      exact Inv_success_state s dv reason meta a b s.billing_idempotency hnd hb hba hbal
    · push_neg at hba
      simpa [updateBalance_insufficient s dv reason meta a b h0 hnd hb hba]
        using ⟨hnd, hbal⟩

theorem Inv_chargeIdem (s : DBState) (dv reason meta key : String) (a : Int)
    (hinv : Inv s) : Inv (updateBalanceIdempotent s dv a reason meta key).2 := by
  obtain ⟨hnd, hbal⟩ := hinv
  by_cases h0 : a ≤ 0
  · simpa [chargeIdem_nonpos s dv reason meta key a h0] using ⟨hnd, hbal⟩
  push_neg at h0
  by_cases hk : hasBillingKey s dv reason key
  · simpa [chargeIdem_duplicate s dv reason meta key a hk] using ⟨hnd, hbal⟩
  have hk2 : hasBillingKey s dv reason key = false := by simpa using hk
  cases hb : findVal s.credits dv with
  | none =>
    simpa [chargeIdem_norow s dv reason meta key a h0 hk2 hb] using ⟨hnd, hbal⟩
  | some b =>
    by_cases hba : a ≤ b
    · rw [chargeIdem_success s dv reason meta key a b h0 hk2 hnd hb hba]
      exact Inv_success_state s dv reason meta a b _ hnd hb hba hbal
    · push_neg at hba
      simpa [chargeIdem_insufficient s dv reason meta key a b h0 hk2 hnd hb hba]
        using ⟨hnd, hbal⟩

theorem Inv_chargeIdemTxn (s : DBState) (dv reason meta key : String) (a : Int)
    (hinv : Inv s) : Inv (updateBalanceIdempotentTxn s dv a reason meta key).2 := by
  obtain ⟨hnd, hbal⟩ := hinv
  by_cases h0 : a ≤ 0
  · simpa [chargeIdemTxn_nonpos s dv reason meta key a h0] using ⟨hnd, hbal⟩
  push_neg at h0
  by_cases hk : hasBillingKey s dv reason key
  · simpa [chargeIdemTxn_duplicate s dv reason meta key a hk] using ⟨hnd, hbal⟩
  have hk2 : hasBillingKey s dv reason key = false := by simpa using hk
  cases hb : findVal s.credits dv with
  | none =>
    simpa [chargeIdemTxn_norow s dv reason meta key a h0 hk2 hb] using ⟨hnd, hbal⟩
  | some b =>
    by_cases hba : a ≤ b
    · rw [chargeIdemTxn_success s dv reason meta key a b h0 hk2 hnd hb hba]
      exact Inv_success_state s dv reason meta a b _ hnd hb hba hbal
    · push_neg at hba
      simpa [chargeIdemTxn_insufficient s dv reason meta key a b h0 hk2 hnd hb hba]
        using ⟨hnd, hbal⟩

theorem Inv_applyOp (packs : String → Option Pack)
    (hpk : ∀ pid p, packs pid = some p → 0 ≤ p.credits)
    (s : DBState) (op : BillingOp) (hinv : Inv s) : Inv (applyOp packs s op) := by
  cases op with
  | grant dv pid adm =>
    simp only [applyOp]
    cases hg : creditDevice packs s dv pid adm with
    | ok s2 => exact Inv_creditDevice packs hpk s dv pid adm s2 hg hinv
    | error _ => exact hinv
  | reset dv => exact Inv_reset s dv hinv
  | charge dv a r m => exact Inv_updateBalance s dv r m a hinv
  | chargeIdem dv a r m k => exact Inv_chargeIdem s dv r m k a hinv
  | chargeIdemTxn dv a r m k => exact Inv_chargeIdemTxn s dv r m k a hinv

theorem Inv_applyOps (packs : String → Option Pack)
    (hpk : ∀ pid p, packs pid = some p → 0 ≤ p.credits)
    (ops : List BillingOp) (s : DBState) (hinv : Inv s) :
    Inv (applyOps packs s ops) := by
  induction ops generalizing s with
  | nil => simpa [applyOps] using hinv
  | cons op rest ih =>
    have h1 := Inv_applyOp packs hpk s op hinv
    simpa [applyOps] using ih (applyOp packs s op) h1

end InvLemmas

section JobLemmas

theorem findByKey_updateByKey_self {α : Type} (key : α → String) (l : List α)
    (k : String) (f : α → α) (hf : ∀ x, key (f x) = key x) :
    findByKey key (updateByKey key l k f) k = (findByKey key l k).map f := by
  induction l with
  | nil => simp [findByKey, updateByKey]
  | cons x rest ih =>
    by_cases hx : key x = k
    · simp [updateByKey, findByKey, hx, hf]
    · simpa [updateByKey, findByKey, hx] using ih

theorem findByKey_updateByKey_other {α : Type} (key : α → String) (l : List α)
    (k k2 : String) (f : α → α) (hf : ∀ x, key (f x) = key x) (h : k2 ≠ k) :
    findByKey key (updateByKey key l k f) k2 = findByKey key l k2 := by
  induction l with
  | nil => simp [findByKey, updateByKey]
  | cons x rest ih =>
    by_cases hx : key x = k
    · have hx2 : ¬key x = k2 := fun hc => h ((hc.symm.trans hx).symm ▸ rfl)
      have hfx2 : ¬key (f x) = k2 := by rw [hf]; exact hx2
      simp only [updateByKey, List.map_cons, findByKey, if_pos hx, hfx2, hx2]
      simpa [updateByKey, findByKey] using ih
    · by_cases hx2 : key x = k2
      · simp [updateByKey, findByKey, hx, hx2, h]
      · simp only [updateByKey, List.map_cons, findByKey, if_neg hx, hx2]
        simpa [updateByKey, findByKey] using ih

theorem isEventProcessed_mark_self (s : DBState) (ev evType : String) :
    isEventProcessed (markEventProcessed s ev evType) ev = true := by
  unfold markEventProcessed
  by_cases h : isEventProcessed s ev
  · simpa [h] using h
  · rw [if_neg h]
    simp [isEventProcessed, List.any_append]

end JobLemmas

end Stage5

namespace Stage5.Pool

section PoolLemmas

end PoolLemmas

end Stage5.Pool

namespace Stage5

/-- A small concrete database used by the witnesses: one device with a
100-credit balance recorded by one grant ledger entry. -/
def exDB : DBState :=
  { credits := [("dev", 100)],
    credit_ledger := [⟨"dev", 100, "PACK_HOUR_5", "null"⟩],
    billing_idempotency := [],
    processed_events := [],
    translation_jobs := [],
    transcription_jobs := [] }

/-- Like exDB but with a 40-credit balance (the spec scenario of a
declined 50-credit charge). -/
def exDB40 : DBState :=
  { credits := [("dev", 40)],
    credit_ledger := [⟨"dev", 40, "PACK_HOUR_1", "null"⟩],
    billing_idempotency := [],
    processed_events := [],
    translation_jobs := [],
    transcription_jobs := [] }

/-- A concrete pack table for the witnesses: HOUR_5 grants 60 credits. -/
def exPacks : String → Option Pack := fun pid =>
  if pid = "HOUR_5" then some ⟨60⟩ else none

theorem exPacks_nonneg : ∀ pid p, exPacks pid = some p → 0 ≤ p.credits := by
  intro pid p hp
  unfold exPacks at hp
  by_cases hpid : pid = "HOUR_5"
  · rw [if_pos hpid] at hp
    cases hp
    decide
  · rw [if_neg hpid] at hp
    cases hp

end Stage5

open Stage5 Stage5.Pool

/-- C9: for every charge with amount at most 0 — any account, any reason,
with or without an idempotency key — the charge returns success and
performs no write: no balance change, no ledger entry, and no
idempotency record (plain path, D1 batch path and the transactional
fallback path alike). -/
theorem C9_nonpositive_charge_succeeds_without_writes
    (s : DBState) (d reason meta key : String) (a : Int) (h : a ≤ 0) :
    updateBalance s d a reason meta = (true, s) ∧
    updateBalanceIdempotent s d a reason meta key = (.ok true, s) ∧
    updateBalanceIdempotentTxn s d a reason meta key = (.ok true, s) :=
  ⟨updateBalance_nonpos s d reason meta a h,
   chargeIdem_nonpos s d reason meta key a h,
   chargeIdemTxn_nonpos s d reason meta key a h⟩

/-- Witness for C9: a zero-amount charge on a concrete database. -/
theorem C9_witness :
    updateBalance exDB "dev" 0 "TRANSCRIBE" "m" = (true, exDB) ∧
    updateBalanceIdempotent exDB "dev" 0 "TRANSCRIBE" "m" "k" = (.ok true, exDB) ∧
    updateBalanceIdempotentTxn exDB "dev" 0 "TRANSCRIBE" "m" "k" = (.ok true, exDB) :=
  C9_nonpositive_charge_succeeds_without_writes exDB "dev" "TRANSCRIBE" "m" "k" 0
    (by decide)

/-- C1: for every account with sufficient balance, amount 0 < a, reason
and fresh idempotency key, the idempotent charge succeeds, deducts the
balance exactly once and appends exactly one ledger entry; repeating the
identical charge on the resulting state — the retry that hits the
UNIQUE constraint on (device_id, reason, idempotency_key) — returns
success and changes nothing; the transactional fallback path behaves
identically on both calls. -/
theorem C1_idempotent_charge_deducts_exactly_once
    (s : DBState) (d reason meta key : String) (a b : Int)
    (h0 : 0 < a) (hnd : keysNodup s.credits)
    (hb : findVal s.credits d = some b) (hba : a ≤ b)
    (hk : hasBillingKey s d reason key = false) :
    (updateBalanceIdempotent s d a reason meta key).1 = .ok true ∧
    balanceOf (updateBalanceIdempotent s d a reason meta key).2 d = b - a ∧
    (updateBalanceIdempotent s d a reason meta key).2.credit_ledger =
      s.credit_ledger ++ [⟨d, -a, reason, meta⟩] ∧
    updateBalanceIdempotent (updateBalanceIdempotent s d a reason meta key).2
        d a reason meta key =
      (.ok true, (updateBalanceIdempotent s d a reason meta key).2) ∧
    updateBalanceIdempotentTxn s d a reason meta key =
      updateBalanceIdempotent s d a reason meta key ∧
    updateBalanceIdempotentTxn (updateBalanceIdempotent s d a reason meta key).2
        d a reason meta key =
      (.ok true, (updateBalanceIdempotent s d a reason meta key).2) := by
  have hs := chargeIdem_success s d reason meta key a b h0 hk hnd hb hba
  have hst := chargeIdemTxn_success s d reason meta key a b h0 hk hnd hb hba
  have hk2 : hasBillingKey (updateBalanceIdempotent s d a reason meta key).2
      d reason key = true := by
    rw [hs]
    simp [hasBillingKey, List.any_append]
  refine ⟨by rw [hs], ?_, by rw [hs], ?_, by rw [hs, hst], ?_⟩
  · rw [hs]
    simp [balanceOf, findVal_condDecrement_self s.credits d a b hb, hba]
  · exact chargeIdem_duplicate _ d reason meta key a hk2
  · exact chargeIdemTxn_duplicate _ d reason meta key a hk2

/-- Witness for C1: charging 30 credits twice with key job1 against a
100-credit balance. -/
theorem C1_witness :
    (updateBalanceIdempotent exDB "dev" 30 "TRANSCRIBE" "m" "job1").1 = .ok true ∧
    balanceOf (updateBalanceIdempotent exDB "dev" 30 "TRANSCRIBE" "m" "job1").2 "dev" =
      100 - 30 ∧
    (updateBalanceIdempotent exDB "dev" 30 "TRANSCRIBE" "m" "job1").2.credit_ledger =
      exDB.credit_ledger ++ [⟨"dev", -30, "TRANSCRIBE", "m"⟩] ∧
    updateBalanceIdempotent
        (updateBalanceIdempotent exDB "dev" 30 "TRANSCRIBE" "m" "job1").2
        "dev" 30 "TRANSCRIBE" "m" "job1" =
      (.ok true, (updateBalanceIdempotent exDB "dev" 30 "TRANSCRIBE" "m" "job1").2) ∧
    updateBalanceIdempotentTxn exDB "dev" 30 "TRANSCRIBE" "m" "job1" =
      updateBalanceIdempotent exDB "dev" 30 "TRANSCRIBE" "m" "job1" ∧
    updateBalanceIdempotentTxn
        (updateBalanceIdempotent exDB "dev" 30 "TRANSCRIBE" "m" "job1").2
        "dev" 30 "TRANSCRIBE" "m" "job1" =
      (.ok true, (updateBalanceIdempotent exDB "dev" 30 "TRANSCRIBE" "m" "job1").2) :=
  C1_idempotent_charge_deducts_exactly_once exDB "dev" "TRANSCRIBE" "m" "job1" 30 100
    (by decide) (by decide) (by decide) (by decide) (by decide)

/-- C2: for an account whose balance b is below the charged amount a,
the idempotent charge fails and leaves the database exactly as it was —
in particular no billing_idempotency record remains (the batch aborts
via the NOT NULL sentinel; the fallback path rolls the transaction
back); after a grant raises the balance to at least a, the same charge
with the same idempotency key succeeds. -/
theorem C2_insufficient_charge_rolls_back_and_retry_succeeds
    (packs : String → Option Pack) (s : DBState)
    (d reason meta key packId : String) (a b : Int) (pack : Pack)
    (h0 : 0 < a) (hnd : keysNodup s.credits) (hb : findVal s.credits d = some b)
    (hba : b < a) (hk : hasBillingKey s d reason key = false)
    (hp : packs packId = some pack) (hg : a ≤ b + pack.credits) :
    updateBalanceIdempotent s d a reason meta key = (.ok false, s) ∧
    updateBalanceIdempotentTxn s d a reason meta key = (.ok false, s) ∧
    ∃ s2, creditDevice packs s d packId false = .ok s2 ∧
      (updateBalanceIdempotent s2 d a reason meta key).1 = .ok true ∧
      balanceOf (updateBalanceIdempotent s2 d a reason meta key).2 d =
        b + pack.credits - a ∧
      (updateBalanceIdempotent s2 d a reason meta key).2.credit_ledger =
        s2.credit_ledger ++ [⟨d, -a, reason, meta⟩] := by
  refine ⟨chargeIdem_insufficient s d reason meta key a b h0 hk hnd hb hba,
          chargeIdemTxn_insufficient s d reason meta key a b h0 hk hnd hb hba, ?_⟩
  have hcd : creditDevice packs s d packId false = .ok (recordLedger
      { s with credits := upsertAdd s.credits d pack.credits } d pack.credits
      ("PACK_" ++ packId.toUpper) "null") := by
    simp [creditDevice, hp]
  set s2 := recordLedger { s with credits := upsertAdd s.credits d pack.credits }
      d pack.credits ("PACK_" ++ packId.toUpper) "null" with hs2def
  have hnd2 : keysNodup s2.credits := by
    simpa [hs2def, recordLedger] using upsertAdd_keys_nodup s.credits d pack.credits hnd
  have hb2 : findVal s2.credits d = some (b + pack.credits) := by
    simp [hs2def, recordLedger, findVal_upsertAdd_self, hb]
  have hk2 : hasBillingKey s2 d reason key = false := hk
  have hsucc := chargeIdem_success s2 d reason meta key a (b + pack.credits) h0 hk2
    hnd2 hb2 hg
  refine ⟨s2, hcd, by rw [hsucc], ?_, by rw [hsucc]⟩
  rw [hsucc]
  simp [balanceOf, findVal_condDecrement_self s2.credits d a (b + pack.credits) hb2, hg]

/-- Witness for C2: a 50-credit charge against a 40-credit balance
fails cleanly; granting the 60-credit HOUR_5 pack and retrying the same
key succeeds. -/
theorem C2_witness :
    updateBalanceIdempotent exDB40 "dev" 50 "TRANSCRIBE" "m" "job1" =
      (.ok false, exDB40) ∧
    updateBalanceIdempotentTxn exDB40 "dev" 50 "TRANSCRIBE" "m" "job1" =
      (.ok false, exDB40) ∧
    ∃ s2, creditDevice exPacks exDB40 "dev" "HOUR_5" false = .ok s2 ∧
      (updateBalanceIdempotent s2 "dev" 50 "TRANSCRIBE" "m" "job1").1 = .ok true ∧
      balanceOf (updateBalanceIdempotent s2 "dev" 50 "TRANSCRIBE" "m" "job1").2 "dev" =
        40 + (60 : Int) - 50 ∧
      (updateBalanceIdempotent s2 "dev" 50 "TRANSCRIBE" "m" "job1").2.credit_ledger =
        s2.credit_ledger ++ [⟨"dev", -50, "TRANSCRIBE", "m"⟩] :=
  C2_insufficient_charge_rolls_back_and_retry_succeeds exPacks exDB40 "dev"
    "TRANSCRIBE" "m" "job1" "HOUR_5" 50 40 ⟨60⟩ (by decide) (by decide) (by decide)
    (by decide) (by decide) (by decide) (by decide)

/-- C3: starting from the empty store, after any sequence of grants,
admin resets and charges (plain, idempotent, and transactional-fallback)
that complete without a storage fault, every account balance equals the
sum of that account's credit_ledger deltas. -/
theorem C3_balance_equals_ledger_sum
    (packs : String → Option Pack)
    (hpk : ∀ pid p, packs pid = some p → 0 ≤ p.credits)
    (ops : List BillingOp) (d : String) :
    balanceOf (applyOps packs DBState.init ops) d =
      ledgerSum (applyOps packs DBState.init ops).credit_ledger d :=
  ((Inv_applyOps packs hpk ops DBState.init Inv_init).2 d).1

/-- Witness for C3: a grant, a duplicate idempotent charge, a plain
charge and an admin reset. -/
theorem C3_witness :
    balanceOf (applyOps exPacks DBState.init
        [.grant "dev" "HOUR_5" false,
         .chargeIdem "dev" 25 "TRANSCRIBE" "m" "k1",
         .chargeIdem "dev" 25 "TRANSCRIBE" "m" "k1",
         .charge "dev" 10 "TRANSLATE" "m",
         .reset "dev"]) "dev" =
      ledgerSum (applyOps exPacks DBState.init
        [.grant "dev" "HOUR_5" false,
         .chargeIdem "dev" 25 "TRANSCRIBE" "m" "k1",
         .chargeIdem "dev" 25 "TRANSCRIBE" "m" "k1",
         .charge "dev" 10 "TRANSLATE" "m",
         .reset "dev"]).credit_ledger "dev" :=
  C3_balance_equals_ledger_sum exPacks exPacks_nonneg
    [.grant "dev" "HOUR_5" false,
     .chargeIdem "dev" 25 "TRANSCRIBE" "m" "k1",
     .chargeIdem "dev" 25 "TRANSCRIBE" "m" "k1",
     .charge "dev" 10 "TRANSLATE" "m",
     .reset "dev"] "dev"

namespace Stage5

theorem markEventProcessed_credits (s : DBState) (e t : String) :
    (markEventProcessed s e t).credits = s.credits := by
  unfold markEventProcessed
  split <;> rfl

theorem getTranslationJob_storeResult (s : DBState) (jobId content : String)
    (pt ct : Option Int) :
    getTranslationJob (storeTranslationJobResult s jobId content pt ct) jobId =
      (getTranslationJob s jobId).map fun j =>
        { j with status := "completed", result := some content, error := none,
                 prompt_tokens := pt, completion_tokens := ct } := by
  unfold getTranslationJob storeTranslationJobResult
  exact findByKey_updateByKey_self _ _ _ _ (fun x => rfl)

theorem getTranslationJob_storeError (s : DBState) (jobId msg : String) :
    getTranslationJob (storeTranslationJobError s jobId msg) jobId =
      (getTranslationJob s jobId).map fun j =>
        { j with status := "failed", error := some msg } := by
  unfold getTranslationJob storeTranslationJobError
  exact findByKey_updateByKey_self _ _ _ _ (fun x => rfl)

theorem getTranscriptionJob_storeResult (s : DBState) (jobId : String)
    (result : TranscriptPayload) (ds : Option Int) :
    getTranscriptionJob (storeTranscriptionJobResult s jobId result ds) jobId =
      (getTranscriptionJob s jobId).map fun j =>
        { j with status := "completed", result := some result,
                 duration_seconds := ds, error := none } := by
  unfold getTranscriptionJob storeTranscriptionJobResult
  exact findByKey_updateByKey_self _ _ _ _ (fun x => rfl)

theorem getTranscriptionJob_storeError (s : DBState) (jobId msg : String) :
    getTranscriptionJob (storeTranscriptionJobError s jobId msg) jobId =
      (getTranscriptionJob s jobId).map fun j =>
        { j with status := "failed", error := some msg } := by
  unfold getTranscriptionJob storeTranscriptionJobError
  exact findByKey_updateByKey_self _ _ _ _ (fun x => rfl)

end Stage5

/-- C4: an inbound payment event whose id has not been processed invokes
the handler body once (here a checkout.session.completed grant), commits
its side effects, and only then marks the event processed; the second
delivery of the same event id is short-circuited by the processed-events
check, returns a success response without entering the handler body and
changes nothing; and when the handler body throws (a storage fault in
the grant), the event is NOT marked processed, so a retry will re-run
the handler. -/
theorem C4_webhook_event_processed_once
    (packs : String → Option Pack) (s : DBState) (ev : StripeEvent)
    (dv pid : String) (pack : Pack)
    (hnp : isEventProcessed s ev.id = false)
    (ht : ev.type = "checkout.session.completed")
    (hd : ev.deviceId = some dv) (hp : ev.packId = some pid)
    (hpk : packs pid = some pack) :
    (stripeWebhookPost packs false s ev).1 = ⟨200, "received", true⟩ ∧
    (∃ s2, creditDevice packs s dv pid false = .ok s2 ∧
      (stripeWebhookPost packs false s ev).2 = markEventProcessed s2 ev.id ev.type) ∧
    balanceOf (stripeWebhookPost packs false s ev).2 dv =
      balanceOf s dv + pack.credits ∧
    isEventProcessed (stripeWebhookPost packs false s ev).2 ev.id = true ∧
    (∀ fault2 : Bool,
      stripeWebhookPost packs fault2 (stripeWebhookPost packs false s ev).2 ev =
        (⟨200, "already-processed", false⟩, (stripeWebhookPost packs false s ev).2)) ∧
    stripeWebhookPost packs true s ev = (⟨500, "webhook-processing-failed", true⟩, s) := by
  have hcd : creditDevice packs s dv pid false = .ok (recordLedger
      { s with credits := upsertAdd s.credits dv pack.credits } dv pack.credits
      ("PACK_" ++ pid.toUpper) "null") := by
    simp [creditDevice, hpk]
  set s2 := recordLedger { s with credits := upsertAdd s.credits dv pack.credits }
      dv pack.credits ("PACK_" ++ pid.toUpper) "null" with hs2def
  have hbody : handleEventBody packs false s ev = .ok s2 := by
    simp [handleEventBody, ht, handleCheckoutCompleted, hd, hp, hpk, hcd]
  have hbodyF : handleEventBody packs true s ev = .error "storage-unavailable" := by
    simp [handleEventBody, ht, handleCheckoutCompleted, hd, hp, hpk]
  have hrun : stripeWebhookPost packs false s ev =
      (⟨200, "received", true⟩, markEventProcessed s2 ev.id ev.type) := by
    simp [stripeWebhookPost, hnp, hbody]
  have hmarked : isEventProcessed (markEventProcessed s2 ev.id ev.type) ev.id = true :=
    isEventProcessed_mark_self s2 ev.id ev.type
  refine ⟨by rw [hrun], ⟨s2, hcd, by rw [hrun]⟩, ?_, ?_, ?_, ?_⟩
  · rw [hrun]
    show balanceOf (markEventProcessed s2 ev.id ev.type) dv = _
    simp [balanceOf, markEventProcessed_credits, hs2def, recordLedger,
          findVal_upsertAdd_self]
  · rw [hrun]
    exact hmarked
  · intro fault2
    rw [hrun]
    simp [stripeWebhookPost, hmarked]
  · simp [stripeWebhookPost, hnp, hbodyF]

namespace Stage5

/-- A concrete checkout.session.completed event for the witnesses. -/
def exEvent : StripeEvent :=
  ⟨"evt_1", "checkout.session.completed", some "dev", some "HOUR_5"⟩

end Stage5

/-- Witness for C4: the concrete checkout event against exDB. -/
theorem C4_witness :
    (stripeWebhookPost exPacks false exDB exEvent).1 = ⟨200, "received", true⟩ ∧
    (∃ s2, creditDevice exPacks exDB "dev" "HOUR_5" false = .ok s2 ∧
      (stripeWebhookPost exPacks false exDB exEvent).2 =
        markEventProcessed s2 exEvent.id exEvent.type) ∧
    balanceOf (stripeWebhookPost exPacks false exDB exEvent).2 "dev" =
      balanceOf exDB "dev" + (⟨60⟩ : Pack).credits ∧
    isEventProcessed (stripeWebhookPost exPacks false exDB exEvent).2 exEvent.id =
      true ∧
    (∀ fault2 : Bool,
      stripeWebhookPost exPacks fault2 (stripeWebhookPost exPacks false exDB exEvent).2
          exEvent =
        (⟨200, "already-processed", false⟩,
         (stripeWebhookPost exPacks false exDB exEvent).2)) ∧
    stripeWebhookPost exPacks true exDB exEvent =
      (⟨500, "webhook-processing-failed", true⟩, exDB) :=
  C4_webhook_event_processed_once exPacks exDB exEvent "dev" "HOUR_5" ⟨60⟩
    (by decide) (by decide) (by decide) (by decide) (by decide)

/-- C5: whenever the billing charge issued after a successful provider
result is declined for insufficient balance, the job is overwritten to
the failed state with a billing-specific message and the caller gets an
error: persistCompletion (translation) stores the completed result,
finds the job uncredited, fails the charge, force-fails the job with
insufficient-credits and reports 402; the transcription completion
webhook likewise stores Insufficient credits and answers 402, charging
nothing. -/
theorem C5_failed_billing_force_fails_job
    (s : DBState) (jobId jobOwner model payload : String)
    (completion : ChatCompletion) (job : TranslationJob) (b : Int)
    (hjob : getTranslationJob s jobId = some job) (hcred : job.credited = false)
    (hnd : keysNodup s.credits) (hb : findVal s.credits jobOwner = some b)
    (hsp : 0 < tokensToCredits
      (completion.usagePrompt.getD (estimateTokensFromLength payload.length))
      (completion.usageCompletion.getD
        (estimateTokensFromLength completion.content.length)) model)
    (hba : b < tokensToCredits
      (completion.usagePrompt.getD (estimateTokensFromLength payload.length))
      (completion.usageCompletion.getD
        (estimateTokensFromLength completion.content.length)) model)
    (jobId2 : String) (payload2 : TranscriptPayload) (tjob : TranscriptionJob)
    (dur : ℚ) (spend2 b2 : Int)
    (htj : getTranscriptionJob s jobId2 = some tjob)
    (hdur : getBillingDurationSeconds payload2 = some dur)
    (hsec : secondsToCredits ((Int.ceil dur : Int) : ℚ) "elevenlabs-scribe" =
      some spend2)
    (hsp2 : 0 < spend2)
    (hkey : hasBillingKey s tjob.device_id "TRANSCRIBE" jobId2 = false)
    (hb2 : findVal s.credits tjob.device_id = some b2) (hba2 : b2 < spend2) :
    (persistCompletion s jobId jobOwner model payload completion).1 =
      .error 402 "insufficient-credits" ∧
    (∃ j2, getTranslationJob
        (persistCompletion s jobId jobOwner model payload completion).2 jobId =
        some j2 ∧ j2.status = "failed" ∧ j2.error = some "insufficient-credits") ∧
    (persistCompletion s jobId jobOwner model payload completion).2.credits =
      s.credits ∧
    (persistCompletion s jobId jobOwner model payload completion).2.credit_ledger =
      s.credit_ledger ∧
    transcribeWebhookPost s jobId2 true payload2 none =
      (.insufficientCredits, storeTranscriptionJobError s jobId2 "Insufficient credits") ∧
    TWebhookResp.httpStatus .insufficientCredits = 402 ∧
    (∃ j3, getTranscriptionJob
        (transcribeWebhookPost s jobId2 true payload2 none).2 jobId2 = some j3 ∧
        j3.status = "failed" ∧ j3.error = some "Insufficient credits") ∧
    (transcribeWebhookPost s jobId2 true payload2 none).2.credits = s.credits ∧
    (transcribeWebhookPost s jobId2 true payload2 none).2.billing_idempotency =
      s.billing_idempotency := by
  set pt := completion.usagePrompt.getD (estimateTokensFromLength payload.length)
    with hptdef
  set ct := completion.usageCompletion.getD
    (estimateTokensFromLength completion.content.length) with hctdef
  set s1 := storeTranslationJobResult s jobId completion.content (some pt) (some ct)
    with hs1def
  have hj1 : getTranslationJob s1 jobId =
      some { job with
             status := "completed",
             result := some completion.content,
             error := none,
             prompt_tokens := some pt,
             completion_tokens := some ct } := by
    rw [hs1def, getTranslationJob_storeResult, hjob]
    rfl
  have hbal : updateBalance s1 jobOwner (tokensToCredits pt ct model)
      "TRANSLATE" "tokens" = (false, s1) :=
    updateBalance_insufficient s1 jobOwner "TRANSLATE" "tokens"
      (tokensToCredits pt ct model) b hsp hnd hb hba
  have hrun : persistCompletion s jobId jobOwner model payload completion =
      (.error 402 "insufficient-credits",
       storeTranslationJobError s1 jobId "insufficient-credits") := by
    unfold persistCompletion
    dsimp only
    rw [← hptdef, ← hctdef, ← hs1def, hj1]
    simp only [hcred, Bool.false_eq_true, if_false]
    unfold deductTranslationCredits
    rw [hbal]
    simp
  have hj2 : getTranslationJob
      (storeTranslationJobError s1 jobId "insufficient-credits") jobId =
      some { job with
             status := "failed",
             result := some completion.content,
             error := some "insufficient-credits",
             prompt_tokens := some pt,
             completion_tokens := some ct } := by
    rw [getTranslationJob_storeError, hj1]
    rfl
  have hchg : updateBalanceIdempotent s tjob.device_id spend2 "TRANSCRIBE" "seconds"
      jobId2 = (.ok false, s) :=
    chargeIdem_insufficient s tjob.device_id "TRANSCRIBE" "seconds" jobId2 spend2 b2
      hsp2 hkey hnd hb2 hba2
  have hded : deductTranscriptionCredits s tjob.device_id (Int.ceil dur)
      "elevenlabs-scribe" (some jobId2) = (.ok false, s) := by
    unfold deductTranscriptionCredits
    rw [hsec]
    exact hchg
  have hrun2 : transcribeWebhookPost s jobId2 true payload2 none =
      (.insufficientCredits,
       storeTranscriptionJobError s jobId2 "Insufficient credits") := by
    unfold transcribeWebhookPost
    rw [htj, hdur]
    simp only [Bool.true_eq_false, if_false, hded]
  have hj3 : getTranscriptionJob
      (storeTranscriptionJobError s jobId2 "Insufficient credits") jobId2 =
      some { tjob with
             status := "failed",
             error := some "Insufficient credits" } := by
    rw [getTranscriptionJob_storeError, htj]
    rfl
  refine ⟨by rw [hrun], ⟨_, by rw [hrun]; exact hj2, rfl, rfl⟩,
          by rw [hrun]; rfl, by rw [hrun]; rfl,
          hrun2, rfl, ⟨_, by rw [hrun2]; exact hj3, rfl, rfl⟩,
          by rw [hrun2]; rfl, by rw [hrun2]; rfl⟩

namespace Stage5

/-- An uncredited translation job for the witnesses. -/
def exTransJob : TranslationJob :=
  ⟨"tj1", "dev", "processing", none, none, none, none, false⟩

/-- A processing transcription job for the witnesses. -/
def exTJob : TranscriptionJob :=
  ⟨"job1", "dev", "processing", some "file1", none, none, none, none⟩

/-- A database with a 10-credit balance and one job of each kind. -/
def exDBJobs : DBState :=
  { credits := [("dev", 10)],
    credit_ledger := [⟨"dev", 10, "PACK_HOUR_1", "null"⟩],
    billing_idempotency := [],
    processed_events := [],
    translation_jobs := [exTransJob],
    transcription_jobs := [exTJob] }

/-- A relay completion whose usage reports 80 prompt and 10 completion
tokens. -/
def exCompletion : ChatCompletion := ⟨"translated text", some 80, some 10⟩

/-- A transcription payload with an explicit 4-second duration. -/
def exPayload4 : TranscriptPayload := ⟨some 4, none, some "hello", none, none⟩

theorem tokenPrices_gpt51 :
    tokenPrices "gpt-5.1" = some (125 / 100 / 1000000, 10 / 1000000) := rfl

theorem perSecondPrice_scribe :
    perSecondPrice "elevenlabs-scribe" = some (27 / 100 / 3600) := rfl

theorem tokensToCredits_eval_80_10 :
    tokensToCredits ((80 : Int) : ℚ) ((10 : Int) : ℚ) "gpt-5.1" = 14 := by
  unfold tokensToCredits
  simp only [tokenPrices_gpt51]
  norm_num [MARGIN, USD_PER_CREDIT, TOKEN_CREDIT_CALIBRATION, Int.ceil_eq_iff]

theorem ceil_four_rat : (Int.ceil (4 : ℚ) : Int) = 4 := by norm_num

theorem secondsToCredits_scribe_4 :
    secondsToCredits ((4 : Int) : ℚ) "elevenlabs-scribe" = some 21 := by
  unfold secondsToCredits
  simp only [perSecondPrice_scribe]
  norm_num [MARGIN, USD_PER_CREDIT, AUDIO_CREDIT_CALIBRATION, Int.ceil_eq_iff]

end Stage5

/-- Witness for C5: a 14-credit translation charge and a 21-credit
transcription charge both declined against a 10-credit balance. -/
theorem C5_witness :
    (persistCompletion exDBJobs "tj1" "dev" "gpt-5.1" "payload" exCompletion).1 =
      .error 402 "insufficient-credits" ∧
    (∃ j2, getTranslationJob
        (persistCompletion exDBJobs "tj1" "dev" "gpt-5.1" "payload" exCompletion).2
        "tj1" = some j2 ∧ j2.status = "failed" ∧
        j2.error = some "insufficient-credits") ∧
    (persistCompletion exDBJobs "tj1" "dev" "gpt-5.1" "payload" exCompletion).2.credits =
      exDBJobs.credits ∧
    (persistCompletion exDBJobs "tj1" "dev" "gpt-5.1" "payload"
        exCompletion).2.credit_ledger = exDBJobs.credit_ledger ∧
    transcribeWebhookPost exDBJobs "job1" true exPayload4 none =
      (.insufficientCredits,
       storeTranscriptionJobError exDBJobs "job1" "Insufficient credits") ∧
    TWebhookResp.httpStatus .insufficientCredits = 402 ∧
    (∃ j3, getTranscriptionJob
        (transcribeWebhookPost exDBJobs "job1" true exPayload4 none).2 "job1" =
        some j3 ∧ j3.status = "failed" ∧ j3.error = some "Insufficient credits") ∧
    (transcribeWebhookPost exDBJobs "job1" true exPayload4 none).2.credits =
      exDBJobs.credits ∧
    (transcribeWebhookPost exDBJobs "job1" true exPayload4 none).2.billing_idempotency =
      exDBJobs.billing_idempotency :=
  C5_failed_billing_force_fails_job exDBJobs "tj1" "dev" "gpt-5.1" "payload"
    exCompletion exTransJob 10
    (by decide) (by decide) (by decide) (by decide)
    (show (0 : Int) < tokensToCredits ((80 : Int) : ℚ) ((10 : Int) : ℚ) "gpt-5.1" by
      rw [tokensToCredits_eval_80_10]; decide)
    (show (10 : Int) < tokensToCredits ((80 : Int) : ℚ) ((10 : Int) : ℚ) "gpt-5.1" by
      rw [tokensToCredits_eval_80_10]; decide)
    "job1" exPayload4 exTJob 4 21 10
    (by decide) (by decide)
    (by rw [ceil_four_rat]; exact secondsToCredits_scribe_4)
    (by decide) (by decide) (by decide) (by decide)

namespace Stage5

theorem getBilling_no_content (p : TranscriptPayload)
    (hraw : rawDuration p = none) (hc : hasTranscribedContent p = false) :
    getBillingDurationSeconds p = some 0 := by
  have hseg : p.segments.getD [] = [] := by
    cases hs : p.segments with
    | none => rfl
    | some ss =>
      cases ss with
      | nil => rfl
      | cons a tl =>
        exfalso
        revert hc
        simp [hasTranscribedContent, hs]
  have hw : p.words.getD [] = [] := by
    cases hws : p.words with
    | none => rfl
    | some ws =>
      cases ws with
      | nil => rfl
      | cons a tl =>
        exfalso
        revert hc
        simp [hasTranscribedContent, hws]
  have hder : deriveDurationSecondsFromTimings p = none := by
    simp [deriveDurationSecondsFromTimings, hseg, hw, maxEndSegments, maxEndWords]
  simp [getBillingDurationSeconds, hraw, hder, hc]

theorem secondsToCredits_scribe_0 :
    secondsToCredits ((0 : Int) : ℚ) "elevenlabs-scribe" = some 0 := by
  unfold secondsToCredits
  simp only [perSecondPrice_scribe]
  norm_num

end Stage5

/-- C10: transcription billing fails closed.  A payload with transcribed
content but no determinable positive billing duration makes the webhook
store the job as failed with billing-duration-unavailable (HTTP 500) and
attempt no charge, and makes the synchronous handler answer 502 without
returning the transcription and without touching the store.  A payload
with no content at all (and no duration field) yields billing duration
0: the webhook completes the job with duration 0 and no balance, ledger
or idempotency write. -/
theorem C10_billing_duration_fails_closed
    (s : DBState) (deviceId model : String) (idem : Option String)
    (jobIdA : String) (jobA : TranscriptionJob) (p1 : TranscriptPayload)
    (errA : Option String)
    (hjobA : getTranscriptionJob s jobIdA = some jobA)
    (hdurA : getBillingDurationSeconds p1 = none)
    (relay direct : ProviderOutcome)
    (jobIdC : String) (jobC : TranscriptionJob) (p2 : TranscriptPayload)
    (errC : Option String)
    (hjobC : getTranscriptionJob s jobIdC = some jobC)
    (hraw : rawDuration p2 = none)
    (hnc : hasTranscribedContent p2 = false) :
    transcribeWebhookPost s jobIdA true p1 errA =
      (.billingDurationUnavailable,
       storeTranscriptionJobError s jobIdA "billing-duration-unavailable") ∧
    TWebhookResp.httpStatus .billingDurationUnavailable = 500 ∧
    (∃ jA, getTranscriptionJob
        (transcribeWebhookPost s jobIdA true p1 errA).2 jobIdA = some jA ∧
        jA.status = "failed" ∧ jA.error = some "billing-duration-unavailable") ∧
    (transcribeWebhookPost s jobIdA true p1 errA).2.credits = s.credits ∧
    (transcribeWebhookPost s jobIdA true p1 errA).2.credit_ledger =
      s.credit_ledger ∧
    (transcribeWebhookPost s jobIdA true p1 errA).2.billing_idempotency =
      s.billing_idempotency ∧
    transcribePost s deviceId model idem (.success p1) relay direct =
      (⟨502, some "billing-duration-unavailable", none, none, none,
        true, false, false⟩, s) ∧
    getBillingDurationSeconds p2 = some 0 ∧
    transcribeWebhookPost s jobIdC true p2 errC =
      (.success, storeTranscriptionJobResult s jobIdC p2 (some 0)) ∧
    (transcribeWebhookPost s jobIdC true p2 errC).2.credits = s.credits ∧
    (transcribeWebhookPost s jobIdC true p2 errC).2.credit_ledger =
      s.credit_ledger ∧
    (transcribeWebhookPost s jobIdC true p2 errC).2.billing_idempotency =
      s.billing_idempotency ∧
    (∃ jC, getTranscriptionJob
        (transcribeWebhookPost s jobIdC true p2 errC).2 jobIdC = some jC ∧
        jC.status = "completed" ∧ jC.result = some p2 ∧
        jC.duration_seconds = some 0) := by
  have hrunA : transcribeWebhookPost s jobIdA true p1 errA =
      (.billingDurationUnavailable,
       storeTranscriptionJobError s jobIdA "billing-duration-unavailable") := by
    unfold transcribeWebhookPost
    rw [hjobA, hdurA]
    simp
  have hsync : transcribePost s deviceId model idem (.success p1) relay direct =
      (⟨502, some "billing-duration-unavailable", none, none, none,
        true, false, false⟩, s) := by
    show finalizeTranscription s deviceId model idem p1 true true false false = _
    unfold finalizeTranscription
    rw [hdurA]
  have hdur0 : getBillingDurationSeconds p2 = some 0 :=
    getBilling_no_content p2 hraw hnc
  have hded0 : deductTranscriptionCredits s jobC.device_id (Int.ceil (0 : ℚ))
      "elevenlabs-scribe" (some jobIdC) = (.ok true, s) := by
    unfold deductTranscriptionCredits
    rw [show (Int.ceil (0 : ℚ) : Int) = 0 by simp]
    rw [secondsToCredits_scribe_0]
    exact chargeIdem_nonpos s jobC.device_id "TRANSCRIBE" "seconds" jobIdC 0
      (le_refl 0)
  have hrunC : transcribeWebhookPost s jobIdC true p2 errC =
      (.success, storeTranscriptionJobResult s jobIdC p2 (some 0)) := by
    unfold transcribeWebhookPost
    rw [hjobC, hdur0]
    simp only [Bool.true_eq_false, if_false, hded0]
    rw [show (Int.ceil (0 : ℚ) : Int) = 0 by simp]
  have hjA : getTranscriptionJob
      (storeTranscriptionJobError s jobIdA "billing-duration-unavailable") jobIdA =
      some { jobA with
             status := "failed",
             error := some "billing-duration-unavailable" } := by
    rw [getTranscriptionJob_storeError, hjobA]
    rfl
  have hjC : getTranscriptionJob
      (storeTranscriptionJobResult s jobIdC p2 (some 0)) jobIdC =
      some { jobC with
             status := "completed",
             result := some p2,
             duration_seconds := some 0,
             error := none } := by
    rw [getTranscriptionJob_storeResult, hjobC]
    rfl
  refine ⟨hrunA, rfl, ⟨_, by rw [hrunA]; exact hjA, rfl, rfl⟩,
          by rw [hrunA]; rfl, by rw [hrunA]; rfl, by rw [hrunA]; rfl,
          hsync, hdur0, hrunC,
          by rw [hrunC]; rfl, by rw [hrunC]; rfl, by rw [hrunC]; rfl,
          ⟨_, by rw [hrunC]; exact hjC, rfl, rfl, rfl⟩⟩

namespace Stage5

/-- A payload with text content but no duration information at all. -/
def exPayloadNoDur : TranscriptPayload := ⟨none, none, some "hello", none, none⟩

/-- A payload with no content and no duration: an empty transcription. -/
def exPayloadEmpty : TranscriptPayload := ⟨none, none, none, some [], none⟩

end Stage5

/-- Witness for C10 on the concrete job database. -/
theorem C10_witness :
    transcribeWebhookPost exDBJobs "job1" true exPayloadNoDur none =
      (.billingDurationUnavailable,
       storeTranscriptionJobError exDBJobs "job1" "billing-duration-unavailable") ∧
    TWebhookResp.httpStatus .billingDurationUnavailable = 500 ∧
    (∃ jA, getTranscriptionJob
        (transcribeWebhookPost exDBJobs "job1" true exPayloadNoDur none).2 "job1" =
        some jA ∧ jA.status = "failed" ∧
        jA.error = some "billing-duration-unavailable") ∧
    (transcribeWebhookPost exDBJobs "job1" true exPayloadNoDur none).2.credits =
      exDBJobs.credits ∧
    (transcribeWebhookPost exDBJobs "job1" true exPayloadNoDur none).2.credit_ledger =
      exDBJobs.credit_ledger ∧
    (transcribeWebhookPost exDBJobs "job1" true
        exPayloadNoDur none).2.billing_idempotency = exDBJobs.billing_idempotency ∧
    transcribePost exDBJobs "dev" "whisper-1" none (.success exPayloadNoDur)
        (.failure "x") (.failure "y") =
      (⟨502, some "billing-duration-unavailable", none, none, none,
        true, false, false⟩, exDBJobs) ∧
    getBillingDurationSeconds exPayloadEmpty = some 0 ∧
    transcribeWebhookPost exDBJobs "job1" true exPayloadEmpty none =
      (.success, storeTranscriptionJobResult exDBJobs "job1" exPayloadEmpty (some 0)) ∧
    (transcribeWebhookPost exDBJobs "job1" true exPayloadEmpty none).2.credits =
      exDBJobs.credits ∧
    (transcribeWebhookPost exDBJobs "job1" true exPayloadEmpty none).2.credit_ledger =
      exDBJobs.credit_ledger ∧
    (transcribeWebhookPost exDBJobs "job1" true
        exPayloadEmpty none).2.billing_idempotency = exDBJobs.billing_idempotency ∧
    (∃ jC, getTranscriptionJob
        (transcribeWebhookPost exDBJobs "job1" true exPayloadEmpty none).2 "job1" =
        some jC ∧ jC.status = "completed" ∧ jC.result = some exPayloadEmpty ∧
        jC.duration_seconds = some 0) :=
  C10_billing_duration_fails_closed exDBJobs "dev" "whisper-1" none
    "job1" exTJob exPayloadNoDur none (by decide) (by decide)
    (.failure "x") (.failure "y")
    "job1" exTJob exPayloadEmpty none (by decide) (by decide) (by decide)

namespace Stage5

/-- A transcription job already completed with the 4-second payload. -/
def exTJobDone : TranscriptionJob :=
  ⟨"job1", "dev", "completed", none, none, some exPayload4, none, some 4⟩

/-- The database after that job was completed and billed: the charge of
21 credits was settled under idempotency key job1. -/
def exDB7 : DBState :=
  { credits := [("dev", 79)],
    credit_ledger := [⟨"dev", 100, "PACK_HOUR_5", "null"⟩,
                      ⟨"dev", -21, "TRANSCRIBE", "seconds"⟩],
    billing_idempotency := [⟨"dev", "TRANSCRIBE", "job1", 21, "seconds"⟩],
    processed_events := [],
    translation_jobs := [],
    transcription_jobs := [exTJobDone] }

end Stage5

/-- C7 counterexample: a fail callback arriving for the already-completed
job job1 is NOT a no-op — the handler deliberately processes callbacks
for terminal jobs (the source logs a warning and notes it still
processes to avoid losing data), so the stored status flips from
completed to failed and the stored error is overwritten, refuting the
claim that a duplicate or out-of-order callback alters nothing. -/
theorem C7_counterexample :
    (getTranscriptionJob exDB7 "job1").map (fun j => j.status) = some "completed" ∧
    (transcribeWebhookPost exDB7 "job1" false exPayload4 (some "late failure")).1 =
      .errorRecorded ∧
    (getTranscriptionJob
        (transcribeWebhookPost exDB7 "job1" false exPayload4
          (some "late failure")).2 "job1").map (fun j => j.status) = some "failed" ∧
    (getTranscriptionJob
        (transcribeWebhookPost exDB7 "job1" false exPayload4
          (some "late failure")).2 "job1").map (fun j => j.error) =
      some (some "late failure") := by
  decide

/-- C7 amended: the webhook handler processes callbacks for a job in any
state (a non-processing state is only logged).  For a job whose charge
was already settled under the jobId idempotency key, a duplicate
complete callback answers success, re-triggers no billing (balance,
ledger and idempotency table unchanged) and re-stores the delivered
result, leaving the job completed; an out-of-order fail callback is
likewise not surfaced as an error to the caller (HTTP 200), but it does
overwrite the stored status and error to failed. -/
theorem C7_terminal_job_duplicate_callbacks
    (s : DBState) (jobId : String) (job : TranscriptionJob)
    (payload : TranscriptPayload) (dur : ℚ) (msg : String)
    (hjob : getTranscriptionJob s jobId = some job)
    (hkey : hasBillingKey s job.device_id "TRANSCRIBE" jobId = true)
    (hdur : getBillingDurationSeconds payload = some dur)
    (hmsg : ¬msg = "") :
    transcribeWebhookPost s jobId true payload none =
      (.success, storeTranscriptionJobResult s jobId payload (some (Int.ceil dur))) ∧
    (transcribeWebhookPost s jobId true payload none).2.credits = s.credits ∧
    (transcribeWebhookPost s jobId true payload none).2.credit_ledger =
      s.credit_ledger ∧
    (transcribeWebhookPost s jobId true payload none).2.billing_idempotency =
      s.billing_idempotency ∧
    TWebhookResp.httpStatus .success = 200 ∧
    (∃ j2, getTranscriptionJob
        (transcribeWebhookPost s jobId true payload none).2 jobId = some j2 ∧
        j2.status = "completed" ∧ j2.result = some payload) ∧
    transcribeWebhookPost s jobId false payload (some msg) =
      (.errorRecorded, storeTranscriptionJobError s jobId msg) ∧
    TWebhookResp.httpStatus .errorRecorded = 200 ∧
    (∃ j3, getTranscriptionJob
        (transcribeWebhookPost s jobId false payload (some msg)).2 jobId = some j3 ∧
        j3.status = "failed" ∧ j3.error = some msg) := by
  have hded : deductTranscriptionCredits s job.device_id (Int.ceil dur)
      "elevenlabs-scribe" (some jobId) = (.ok true, s) := by
    unfold deductTranscriptionCredits secondsToCredits
    simp only [perSecondPrice_scribe, Option.map_some]
    exact chargeIdem_duplicate s job.device_id "TRANSCRIBE" "seconds" jobId _ hkey
  have hrun1 : transcribeWebhookPost s jobId true payload none =
      (.success, storeTranscriptionJobResult s jobId payload
        (some (Int.ceil dur))) := by
    unfold transcribeWebhookPost
    rw [hjob, hdur]
    simp only [Bool.true_eq_false, if_false, hded]
  have hrun2 : transcribeWebhookPost s jobId false payload (some msg) =
      (.errorRecorded, storeTranscriptionJobError s jobId msg) := by
    unfold transcribeWebhookPost
    rw [hjob]
    simp [hmsg]
  have hj2 : getTranscriptionJob
      (storeTranscriptionJobResult s jobId payload (some (Int.ceil dur))) jobId =
      some { job with
             status := "completed",
             result := some payload,
             duration_seconds := some (Int.ceil dur),
             error := none } := by
    rw [getTranscriptionJob_storeResult, hjob]
    rfl
  have hj3 : getTranscriptionJob (storeTranscriptionJobError s jobId msg) jobId =
      some { job with
             status := "failed",
             error := some msg } := by
    rw [getTranscriptionJob_storeError, hjob]
    rfl
  refine ⟨hrun1, by rw [hrun1]; rfl, by rw [hrun1]; rfl, by rw [hrun1]; rfl, rfl,
          ⟨_, by rw [hrun1]; exact hj2, rfl, rfl⟩,
          hrun2, rfl, ⟨_, by rw [hrun2]; exact hj3, rfl, rfl⟩⟩

/-- Witness for the amended C7 on the concrete completed job. -/
theorem C7_witness :
    transcribeWebhookPost exDB7 "job1" true exPayload4 none =
      (.success, storeTranscriptionJobResult exDB7 "job1" exPayload4
        (some (Int.ceil (4 : ℚ)))) ∧
    (transcribeWebhookPost exDB7 "job1" true exPayload4 none).2.credits =
      exDB7.credits ∧
    (transcribeWebhookPost exDB7 "job1" true exPayload4 none).2.credit_ledger =
      exDB7.credit_ledger ∧
    (transcribeWebhookPost exDB7 "job1" true exPayload4 none).2.billing_idempotency =
      exDB7.billing_idempotency ∧
    TWebhookResp.httpStatus .success = 200 ∧
    (∃ j2, getTranscriptionJob
        (transcribeWebhookPost exDB7 "job1" true exPayload4 none).2 "job1" =
        some j2 ∧ j2.status = "completed" ∧ j2.result = some exPayload4) ∧
    transcribeWebhookPost exDB7 "job1" false exPayload4 (some "late") =
      (.errorRecorded, storeTranscriptionJobError exDB7 "job1" "late") ∧
    TWebhookResp.httpStatus .errorRecorded = 200 ∧
    (∃ j3, getTranscriptionJob
        (transcribeWebhookPost exDB7 "job1" false exPayload4 (some "late")).2
        "job1" = some j3 ∧ j3.status = "failed" ∧ j3.error = some "late") :=
  C7_terminal_job_duplicate_callbacks exDB7 "job1" exTJobDone exPayload4 4 "late"
    (by decide) (by decide) (by decide) (by decide)

namespace Stage5

theorem perSecondPrice_whisper : perSecondPrice "whisper-1" = some (6 / 1000 / 60) :=
  rfl

theorem secondsToCredits_whisper_4 :
    secondsToCredits ((4 : Int) : ℚ) "whisper-1" = some 28 := by
  unfold secondsToCredits
  simp only [perSecondPrice_whisper]
  norm_num [MARGIN, USD_PER_CREDIT, AUDIO_CREDIT_CALIBRATION, Int.ceil_eq_iff]

theorem deduct_whisper_4_exDB :
    (deductTranscriptionCredits exDB "dev" (Int.ceil (4 : ℚ)) "whisper-1" none).1 =
      .ok true := by
  unfold deductTranscriptionCredits
  rw [show (Int.ceil (4 : ℚ) : Int) = 4 from ceil_four_rat,
      secondsToCredits_whisper_4]
  decide

end Stage5

/-- C6: when the first provider (ElevenLabs) fails with a non-abort —
in particular a retryable — error and the second provider (the OpenAI
relay) succeeds, the cascade returns the second provider's result
tagged with that provider: billedModel is the requested OpenAI model
actually used and the provider tag is OpenAI, and the third provider
(the direct call) is never invoked. -/
theorem C6_fallback_returns_second_provider_tagged
    (s : DBState) (deviceId model : String) (idem : Option String)
    (em : String) (t : TranscriptPayload) (direct : ProviderOutcome) (dur : ℚ)
    (hdur : getBillingDurationSeconds t = some dur)
    (hch : (deductTranscriptionCredits s deviceId (Int.ceil dur) model idem).1 =
      .ok true) :
    (transcribePost s deviceId model idem (.failure em) (.success t)
        direct).1.invokedEleven = true ∧
    (transcribePost s deviceId model idem (.failure em) (.success t)
        direct).1.invokedRelay = true ∧
    (transcribePost s deviceId model idem (.failure em) (.success t)
        direct).1.invokedDirect = false ∧
    (transcribePost s deviceId model idem (.failure em) (.success t)
        direct).1.status = 200 ∧
    (transcribePost s deviceId model idem (.failure em) (.success t)
        direct).1.returned = some t ∧
    (transcribePost s deviceId model idem (.failure em) (.success t)
        direct).1.billedModel = some model ∧
    (transcribePost s deviceId model idem (.failure em) (.success t)
        direct).1.provider = some "OpenAI" := by
  have hrun : transcribePost s deviceId model idem (.failure em) (.success t)
      direct = (⟨200, none, some t, some model, some "OpenAI", true, true, false⟩,
        (deductTranscriptionCredits s deviceId (Int.ceil dur) model idem).2) := by
    show finalizeTranscription s deviceId model idem t false true true false = _
    unfold finalizeTranscription
    rw [hdur]
    simp only [Bool.false_eq_true, if_false]
    rcases hpair : deductTranscriptionCredits s deviceId (Int.ceil dur) model idem
      with ⟨o, s2⟩
    rw [hpair] at hch
    simp only at hch
    rw [hch]
  rw [hrun]
  exact ⟨rfl, rfl, rfl, rfl, rfl, rfl, rfl⟩

/-- Witness for C6: ElevenLabs fails, the relay succeeds with the
4-second payload, billed as whisper-1 from the OpenAI provider. -/
theorem C6_witness :
    (transcribePost exDB "dev" "whisper-1" none (.failure "eleven down")
        (.success exPayload4) (.failure "unused")).1.invokedEleven = true ∧
    (transcribePost exDB "dev" "whisper-1" none (.failure "eleven down")
        (.success exPayload4) (.failure "unused")).1.invokedRelay = true ∧
    (transcribePost exDB "dev" "whisper-1" none (.failure "eleven down")
        (.success exPayload4) (.failure "unused")).1.invokedDirect = false ∧
    (transcribePost exDB "dev" "whisper-1" none (.failure "eleven down")
        (.success exPayload4) (.failure "unused")).1.status = 200 ∧
    (transcribePost exDB "dev" "whisper-1" none (.failure "eleven down")
        (.success exPayload4) (.failure "unused")).1.returned = some exPayload4 ∧
    (transcribePost exDB "dev" "whisper-1" none (.failure "eleven down")
        (.success exPayload4) (.failure "unused")).1.billedModel =
      some "whisper-1" ∧
    (transcribePost exDB "dev" "whisper-1" none (.failure "eleven down")
        (.success exPayload4) (.failure "unused")).1.provider = some "OpenAI" :=
  C6_fallback_returns_second_provider_tagged exDB "dev" "whisper-1" none
    "eleven down" exPayload4 (.failure "unused") 4 (by decide) deduct_whisper_4_exDB

namespace Stage5.Pool

end Stage5.Pool

